import Mathlib

/-!
Verification of the Query Interpretation & Retrieval Filtering Engine of the
quality-dashboard repository (`ml_models/app/routes/chatbot.py`, class
`SimpleRAGChat`).  The Python class defines several methods twice; Python keeps
the *last* definition of each, and the embeddings below are translated from
those effective definitions (the line numbers cited in comments refer to them).

Strings are modelled as `List Char`.  Python's `difflib.get_close_matches`
cascade (an external standard-library collaborator) is abstracted as an
explicit parameter `gcm`; every theorem that touches it either quantifies over
all such matchers or reaches no call site of it on the concrete inputs used.
-/

set_option maxRecDepth 20000
set_option maxHeartbeats 2000000

/-- Convert a Lean string literal to the `List Char` representation used
throughout this development. -/
def s2l (s : String) : List Char := s.data

/-- Python whitespace class `\s` restricted to its ASCII members. -/
def isPySpace (c : Char) : Bool :=
  c = ' ' || c = '\t' || c = '\n' || c = '\r' || c = '\x0b' || c = '\x0c'

/-- Python regex word-character class `\w` (ASCII fragment). -/
def isWordChar (c : Char) : Bool :=
  c.isAlphanum || c = '_'

/-- Python's `pat in s` substring test. -/
def strIn (pat : List Char) : List Char → Bool
  | [] => pat.isPrefixOf []
  | c :: rest => pat.isPrefixOf (c :: rest) || strIn pat rest

/-- Python's `str.lower()` (ASCII). -/
def pyLower (s : List Char) : List Char := s.map Char.toLower

/-- Drop a trailing run of whitespace, keeping everything before it. -/
def dropTrailingWs : List Char → List Char
  | [] => []
  | c :: rest =>
    match dropTrailingWs rest with
    | [] => if isPySpace c then [] else [c]
    | r => c :: r

/-- Python's `str.strip()` with no arguments. -/
def pyStrip (s : List Char) : List Char :=
  dropTrailingWs (s.dropWhile isPySpace)

/-- One step of Python's `str.split()` (split on whitespace runs, dropping
empty tokens): accumulator-based scanner. -/
def splitWsAux : List Char → List Char → List (List Char)
  | [], acc => if acc = [] then [] else [acc.reverse]
  | c :: rest, acc =>
    if isPySpace c then
      if acc = [] then splitWsAux rest [] else acc.reverse :: splitWsAux rest []
    else
      splitWsAux rest (c :: acc)

/-- Python's `str.split()` with no arguments. -/
def splitWs (s : List Char) : List (List Char) := splitWsAux s []

/-- Fuel-driven worker for `splitOnStr`. -/
def splitOnStrGo (sep : List Char) : Nat → List Char → List Char → List (List Char)
  | 0, s, acc => [acc.reverse ++ s]
  | fuel + 1, s, acc =>
    if sep ≠ [] ∧ sep.isPrefixOf s then
      acc.reverse :: splitOnStrGo sep fuel (s.drop sep.length) []
    else
      match s with
      | [] => [acc.reverse]
      | c :: rest => splitOnStrGo sep fuel rest (c :: acc)

/-- Python's `str.split(sep)` for a non-empty separator. -/
def splitOnStr (sep s : List Char) : List (List Char) :=
  if sep = [] then [s] else splitOnStrGo sep (s.length + 1) s []

/-- Fuel-driven worker for `replaceStr`. -/
def replaceStrGo (old new : List Char) : Nat → List Char → List Char
  | 0, s => s
  | fuel + 1, s =>
    if old.isPrefixOf s then
      new ++ replaceStrGo old new fuel (s.drop old.length)
    else
      match s with
      | [] => []
      | c :: rest => c :: replaceStrGo old new fuel rest

/-- Python's `str.replace(old, new)` for a non-empty `old` (the engine never
calls `replace` with an empty pattern). -/
def replaceStr (old new s : List Char) : List Char :=
  if old = [] then s else replaceStrGo old new (s.length + 1) s

/-- `' '.join(words)`. -/
def joinSpace (ws : List (List Char)) : List Char :=
  List.intercalate [' '] ws

/-- Worker for `collapseWs`: `inRun` records whether the previous character
belonged to a whitespace run whose single replacement space was already
emitted. -/
def collapseWsGo (inRun : Bool) : List Char → List Char
  | [] => []
  | c :: rest =>
    if isPySpace c then
      if inRun then collapseWsGo true rest else ' ' :: collapseWsGo true rest
    else
      c :: collapseWsGo false rest

/-- Python's `re.sub(r'\s+', ' ', s)`: every maximal whitespace run becomes a
single space. -/
def collapseWs (s : List Char) : List Char := collapseWsGo false s

/-- Characters admitted by the final sanitization regex
`[^a-zA-Z0-9\s\-_.,!?]` of `_sanitize_query` (chatbot.py:2569). -/
def allowedSanChar (c : Char) : Bool :=
  c.isAlphanum || isPySpace c || c = '-' || c = '_' || c = '.' || c = ',' ||
    c = '!' || c = '?'

/-- `re.sub(r'[^a-zA-Z0-9\s\-_.,!?]', '', s)`. -/
def charFilterSan (s : List Char) : List Char := s.filter allowedSanChar

/-- `re.sub(r'[^\w\-]', '', word)` used to clean tokens before vocabulary
lookup (chatbot.py:2432). -/
def cleanWordChars (w : List Char) : List Char :=
  w.filter (fun c => isWordChar c || c = '-')

/-- Case-insensitive "the lowercase pattern `pat` starts here" test
(the engine's texts are already lowercased when these substitutions run, and
the patterns are built from lowercased vocabulary values). -/
def ciPrefix (pat s : List Char) : Bool :=
  pat = pyLower (s.take pat.length)

/-- Word-boundary condition to the left of a match whose first character is a
word character: the preceding character, if any, is not a word character. -/
def prevBoundaryOk (prev : Option Char) : Bool :=
  match prev with
  | none => true
  | some p => !isWordChar p

/-- Word-boundary condition immediately after a match ending in a word
character. -/
def afterBoundaryOk : List Char → Bool
  | [] => true
  | d :: _ => !isWordChar d

/-- Fuel-driven worker for `substWordCI`. -/
def substWordCIGo (pat rep : List Char) : Nat → Option Char → List Char → List Char
  | 0, _, s => s
  | fuel + 1, prev, s =>
    match s with
    | [] => []
    | c :: rest =>
      if pat ≠ [] ∧ prevBoundaryOk prev ∧ ciPrefix pat s ∧
          afterBoundaryOk (s.drop pat.length) then
        rep ++ substWordCIGo pat rep fuel ((s.take pat.length).getLastD c)
          (s.drop pat.length)
      else
        c :: substWordCIGo pat rep fuel (some c) rest

/-- Python's `re.sub` of the word-bounded pattern `\b..\b` built around an
abbreviation made of word characters, with `re.IGNORECASE`, as used for the
dynamically built abbreviation patterns (chatbot.py:2519). -/
def substWordCI (pat rep s : List Char) : List Char :=
  substWordCIGo pat rep (s.length + 1) none s

/-- A single regex alternative: returns the number of characters matched at
the front of the input, if it matches there. -/
def AltMatcher : Type := List Char → Option Nat

/-- Alternative that matches a literal string. -/
def litAlt (lit : List Char) : AltMatcher :=
  fun s => if lit.isPrefixOf s then some lit.length else none

/-- Alternative for patterns of the shape `a\s*b` (first character, greedy
whitespace, second character), e.g. `h\s*p`. -/
def gapAlt (a b : Char) : AltMatcher :=
  fun s =>
    match s with
    | [] => none
    | c :: rest =>
      if c = a then
        let k := (rest.takeWhile isPySpace).length
        match rest.drop k with
        | d :: _ => if d = b then some (k + 2) else none
        | [] => none
      else none

/-- Try the alternatives of an alternation group in order at the current
position, also requiring the trailing word boundary of `\b(..|..)\b`. -/
def firstAltMatch (alts : List AltMatcher) (s : List Char) : Option Nat :=
  match alts with
  | [] => none
  | a :: more =>
    match a s with
    | some n => if afterBoundaryOk (s.drop n) then some n else firstAltMatch more s
    | none => firstAltMatch more s

/-- Fuel-driven worker for `altSub`. -/
def altSubGo (alts : List AltMatcher) (rep : List Char) :
    Nat → Option Char → List Char → List Char
  | 0, _, s => s
  | fuel + 1, prev, s =>
    match s with
    | [] => []
    | c :: rest =>
      match (if prevBoundaryOk prev then firstAltMatch alts s else none) with
      | some n =>
        rep ++ altSubGo alts rep fuel ((s.take n).getLastD c) (s.drop n)
      | none => c :: altSubGo alts rep fuel (some c) rest

/-- Python's `re.sub(r'\b(A|B|..)\b', rep, s)` where every alternative starts
and ends with a word character (the shorthand tables of
`_standardize_formatting`, chatbot.py:2543-2551). -/
def altSub (alts : List AltMatcher) (rep s : List Char) : List Char :=
  altSubGo alts rep (s.length + 1) none s

/-- Membership of the `[.!?]` class. -/
def isPunct3 (c : Char) : Bool := c = '.' || c = '!' || c = '?'

/-- Membership of the `[,.!?]` class. -/
def isPunct4 (c : Char) : Bool := c = ',' || c = '.' || c = '!' || c = '?'

/-- Worker for `punctRunsToDot`: `inRun` records whether the current position
continues a `[.!?]` run whose replacement dot was already emitted. -/
def punctRunsGo (inRun : Bool) : List Char → List Char
  | [] => []
  | c :: rest =>
    if isPunct3 c then
      if inRun then punctRunsGo true rest else '.' :: punctRunsGo true rest
    else
      c :: punctRunsGo false rest

/-- Python's `re.sub(r'[.!?]+', '.', s)` (chatbot.py:2532). -/
def punctRunsToDot (s : List Char) : List Char := punctRunsGo false s

/-- Fuel-driven worker for `punctSpacing`. -/
def punctSpacingGo : Nat → List Char → List Char
  | 0, s => s
  | fuel + 1, s =>
    match s with
    | [] => []
    | c :: rest =>
      let k := (s.takeWhile isPySpace).length
      match s.drop k with
      | p :: tail2 =>
        if isPunct4 p then
          p :: ' ' :: punctSpacingGo fuel (tail2.dropWhile isPySpace)
        else
          c :: punctSpacingGo fuel rest
      | [] => c :: punctSpacingGo fuel rest

/-- Python's `re.sub(r'\s*([,.!?])\s*', r'\1 ', s)` (chatbot.py:2535): a run of
whitespace followed by one punctuation character and trailing whitespace is
replaced by the punctuation character plus a single space. -/
def punctSpacing (s : List Char) : List Char :=
  punctSpacingGo (s.length + 1) s

/-- The dynamic vocabulary extracted from corpus metadata by
`_init_intelligent_corrections` (chatbot.py:2324-2350): six categories of
lowercase values.  Claims quantify over arbitrary vocabularies. -/
structure Vocab where
  priority : List (List Char)
  status : List (List Char)
  issue_type : List (List Char)
  assignees : List (List Char)
  projects : List (List Char)
  sprints : List (List Char)
deriving DecidableEq

/-- Initials-based acronym `''.join([w[0] for w in value.split()])`
(chatbot.py:2363). -/
def acronymOf (w : List Char) : List Char :=
  (splitWs w).filterMap List.head?

/-- The fixed connector/action words appended to `known_words`
(chatbot.py:2368-2372). -/
def connectorWords : List (List Char) :=
  [s2l "show", s2l "list", s2l "display", s2l "find", s2l "search", s2l "get",
   s2l "retrieve", s2l "all", s2l "some", s2l "many", s2l "few", s2l "none",
   s2l "and", s2l "or", s2l "with", s2l "assigned", s2l "to", s2l "in",
   s2l "of", s2l "the", s2l "a", s2l "an"]

/-- Space-stripped, hyphenated and acronym variants added for one multi-word
vocabulary value (chatbot.py:2357-2365). -/
def wordVariants (w : List Char) : List (List Char) :=
  if w.contains ' ' then
    [replaceStr (s2l " ") [] w, replaceStr (s2l " ") (s2l "-") w] ++
      (if (splitWs w).length ≤ 3 then
        (let ab := acronymOf w
         if 1 < ab.length then [ab] else [])
      else [])
  else []

/-- The `known_words` list built from a vocabulary snapshot
(chatbot.py:2352-2372): per category all values, then the variants of each
multi-word value, finally the fixed connector words. -/
def knownWordsOf (v : Vocab) : List (List Char) :=
  ([v.priority, v.status, v.issue_type, v.assignees, v.projects,
    v.sprints].foldl
    (fun acc ws => acc ++ ws ++ ws.foldl (fun a w => a ++ wordVariants w) [])
    []) ++ connectorWords

/-- Type of the abstracted `difflib.get_close_matches` cascade of
`_find_best_dynamic_match` (chatbot.py:2466-2469): given the word and the
known-word list, the best approximate match found at cutoffs
0.9, 0.8, 0.7, 0.6 (or `none`).  This is external standard-library behaviour,
so it is a parameter of the embedding. -/
def GcmFun : Type := List Char → List (List Char) → Option (List Char)

/-- `_find_best_dynamic_match` (chatbot.py:2455-2482): exact membership, then
the fuzzy cascade, then substring containment against longer known words. -/
def findBestDynamicMatch (gcm : GcmFun) (knownWords : List (List Char))
    (word : List Char) : List Char :=
  if word.length < 2 then word
  else if knownWords.contains word then word
  else
    match gcm word knownWords with
    | some m => m
    | none =>
      match knownWords.find? (fun kw =>
          3 < kw.length && 3 < word.length &&
            (strIn word kw || strIn kw word)) with
      | some kw => kw
      | none => word

/-- `_fuzzy_correct_text` (chatbot.py:2424-2453): token-wise correction via
`_find_best_dynamic_match`, rejoined with single spaces. -/
def fuzzyCorrectText (gcm : GcmFun) (knownWords : List (List Char))
    (text : List Char) : List Char :=
  joinSpace ((splitWs text).map (fun w =>
    let cw := cleanWordChars w
    if cw = [] then w
    else
      let bm := findBestDynamicMatch gcm knownWords cw
      if bm ≠ [] ∧ bm ≠ cw then replaceStr cw bm w else w))

/-- Insert with Python-dict semantics: an existing key keeps its position and
gets the new value, a new key is appended. -/
def insertUpd (assoc : List (List Char × List Char)) (k val : List Char) :
    List (List Char × List Char) :=
  if assoc.any (fun p => p.1 = k) then
    assoc.map (fun p => if p.1 = k then (k, val) else p)
  else
    assoc ++ [(k, val)]

/-- The abbreviation-pattern table of `_expand_dynamic_abbreviations`
(chatbot.py:2489-2516): initials patterns for multi-word priority and status
values, plus fixed special cases for some issue types. -/
def buildAbbrevPatterns (v : Vocab) : List (List Char × List Char) :=
  let s1 := v.priority.foldl (fun acc p =>
    if p.contains ' ' then
      let ab := acronymOf p
      if 1 < ab.length then insertUpd acc ab p else acc
    else acc) []
  let s2 := v.status.foldl (fun acc st =>
    if st.contains ' ' then
      let ab := acronymOf st
      if 1 < ab.length then insertUpd acc ab st else acc
    else acc) s1
  v.issue_type.foldl (fun acc it =>
    if 3 < it.length then
      if it = s2l "improvement" then insertUpd acc (s2l "imp") it
      else if it = s2l "story" then insertUpd acc (s2l "stry") it
      else if it = s2l "epic" then insertUpd acc (s2l "epc") it
      else acc
    else acc) s2

/-- `_expand_dynamic_abbreviations` (chatbot.py:2484-2526). -/
def expandDynamicAbbreviations (v : Vocab) (text : List Char) : List Char :=
  (buildAbbrevPatterns v).foldl (fun acc pe => substWordCI pe.1 pe.2 acc) text

/-- The shorthand rules of `_standardize_formatting` (chatbot.py:2543-2551),
in source order: alternation group and replacement text. -/
def shorthandRules : List (List AltMatcher × List Char) :=
  [([litAlt (s2l "hp"), litAlt (s2l "h-p"), gapAlt 'h' 'p'], s2l "high priority"),
   ([litAlt (s2l "mp"), litAlt (s2l "m-p"), gapAlt 'm' 'p'], s2l "medium priority"),
   ([litAlt (s2l "lp"), litAlt (s2l "l-p"), gapAlt 'l' 'p'], s2l "low priority"),
   ([litAlt (s2l "cp"), litAlt (s2l "c-p"), gapAlt 'c' 'p'], s2l "critical priority"),
   ([litAlt (s2l "ip"), litAlt (s2l "in-p"), litAlt (s2l "inp")], s2l "in progress"),
   ([litAlt (s2l "td"), litAlt (s2l "t-d")], s2l "to do"),
   ([litAlt (s2l "dn"), litAlt (s2l "cmpl"), litAlt (s2l "fin")], s2l "done")]

/-- `_standardize_formatting` (chatbot.py:2528-2557): punctuation-run
collapsing, punctuation spacing, the three literal replacements, then the
shorthand tables. -/
def standardizeFormatting (text : List Char) : List Char :=
  let t1 := punctRunsToDot text
  let t2 := punctSpacing t1
  let t3 := replaceStr (s2l "  ") (s2l " ") t2
  let t4 := replaceStr (s2l " ,") (s2l ",") t3
  let t5 := replaceStr (s2l " .") (s2l ".") t4
  shorthandRules.foldl (fun acc r => altSub r.1 r.2 acc) t5

/-- `_intelligent_text_correction` (chatbot.py:2393-2422): lowercase and trim,
fuzzy correction, abbreviation expansion, formatting standardization, and
whitespace normalization. -/
def intelligentTextCorrection (gcm : GcmFun) (v : Vocab) (text : List Char) :
    List Char :=
  if text = [] then text
  else
    let t0 := pyStrip (pyLower text)
    let t1 := fuzzyCorrectText gcm (knownWordsOf v) t0
    let t2 := expandDynamicAbbreviations v t1
    let t3 := standardizeFormatting t2
    pyStrip (collapseWs t3)

/-- The final sanitization pass of `_sanitize_query` (chatbot.py:2569-2572):
restrict to the allowed character set, collapse whitespace, strip. -/
def finalSanitizePass (q : List Char) : List Char :=
  pyStrip (collapseWs (charFilterSan q))

/-- `_sanitize_query` (chatbot.py:2559-2582): the full normalization pipeline
(the `normalize` of the specification). -/
def sanitizeQuery (gcm : GcmFun) (v : Vocab) (q : List Char) : List Char :=
  if q = [] then q
  else finalSanitizePass (intelligentTextCorrection gcm v q)

/-- The fixed analytical/logical/comparative/temporal/quantitative pattern
list of `_should_use_llm` (chatbot.py:2699-2720). -/
def complexPatternsList : List (List Char) :=
  [s2l "why", s2l "how", s2l "explain", s2l "describe", s2l "analyze",
   s2l "analysis", s2l "trend", s2l "pattern", s2l "bottleneck", s2l "delay",
   s2l "risk", s2l "issue", s2l "performance", s2l "velocity", s2l "quality",
   s2l "health", s2l "summary",
   s2l "and", s2l "or", s2l "but", s2l "however", s2l "although", s2l "while",
   s2l "except", s2l "excluding", s2l "including", s2l "combine", s2l "merge",
   s2l "compare", s2l "versus", s2l "vs", s2l "difference", s2l "similar",
   s2l "better", s2l "worse", s2l "faster", s2l "slower", s2l "higher",
   s2l "lower",
   s2l "when", s2l "since", s2l "until", s2l "before", s2l "after",
   s2l "during", s2l "recent", s2l "old", s2l "new", s2l "updated",
   s2l "created", s2l "modified",
   s2l "how many", s2l "how much", s2l "count", s2l "total", s2l "average",
   s2l "percentage", s2l "ratio", s2l "proportion", s2l "majority",
   s2l "minority"]

/-- The natural-language indicator list of `_should_use_llm`
(chatbot.py:2737-2740). -/
def naturalLanguageIndicators : List (List Char) :=
  [s2l "which", s2l "what are", s2l "show me", s2l "find all", s2l "get me",
   s2l "can you", s2l "please", s2l "would you", s2l "could you"]

/-- Substring check of the whole complex-pattern list. -/
def hasComplexPatterns (ql : List Char) : Bool :=
  complexPatternsList.any (fun p => strIn p ql)

/-- Substring check of the natural-language indicator list. -/
def hasNaturalLanguage (ql : List Char) : Bool :=
  naturalLanguageIndicators.any (fun p => strIn p ql)

/-- The category-match count of `_should_use_llm` (chatbot.py:2726-2734). -/
def criteriaCount (v : Vocab) (ql : List Char) : Nat :=
  (if v.priority.any (fun w => strIn w ql) then 1 else 0) +
  (if v.status.any (fun w => strIn w ql) then 1 else 0) +
  (if v.issue_type.any (fun w => strIn w ql) then 1 else 0) +
  (if v.assignees.any (fun w => strIn w ql) then 1 else 0)

/-- `_should_use_llm` (chatbot.py:2688-2761): the complexity classifier. -/
def shouldUseLlm (v : Vocab) (q : List Char) : Bool :=
  let ql := pyStrip (pyLower q)
  if ql.length < 3 then true
  else
    hasComplexPatterns ql || 2 < criteriaCount v ql ||
      hasNaturalLanguage ql || 8 < (splitWs ql).length

/-- A Python criteria-field value: `None`, a single string, or a list of
strings. -/
inductive CVal where
  | absent
  | single (s : List Char)
  | multi (l : List (List Char))
deriving DecidableEq

/-- Python truthiness of a criteria-field value. -/
def cvalTruthy : CVal → Bool
  | .absent => false
  | .single s => s ≠ []
  | .multi l => l ≠ []

/-- Python equality of a string against a criteria-field value (comparison
with `None` or with a list is `False`). -/
def cvalEqStr (cv : CVal) (w : List Char) : Bool :=
  match cv with
  | .single s => s = w
  | _ => false

/-- The criteria dictionary produced by the extractors
(chatbot.py:2595-2601). -/
structure Criteria where
  assignee : CVal
  priority : CVal
  status : CVal
  issue_type : CVal
  keywords : List (List Char)
deriving DecidableEq

/-- The freshly initialised criteria dictionary. -/
def emptyCriteria : Criteria :=
  ⟨CVal.absent, CVal.absent, CVal.absent, CVal.absent, []⟩

/-- The done-status synonym list (chatbot.py:2620). -/
def doneSynonymsList : List (List Char) :=
  [s2l "done", s2l "completed", s2l "finished", s2l "complete", s2l "fixed",
   s2l "resolved"]

/-- Whether a status value contains one of the done synonyms
(chatbot.py:2624). -/
def statusHasDoneSyn (st : List Char) : Bool :=
  doneSynonymsList.any (fun syn => strIn syn st)

/-- The priority loop of the extractors: first vocabulary priority occurring
in the query, also in space-stripped form (chatbot.py:2604-2607). -/
def priorityLoopStep (v : Vocab) (q : List Char) (c : Criteria) : Criteria :=
  match v.priority.find? (fun p =>
      strIn p q || strIn (replaceStr (s2l " ") [] p) q) with
  | some p => { c with priority := CVal.single p }
  | none => c

/-- The all-priority phrase override (chatbot.py:2610-2611): the given phrase
list differs between the fast and the fallback extractor. -/
def priorityPhraseStep (phrases : List (List Char)) (v : Vocab) (q : List Char)
    (c : Criteria) : Criteria :=
  if phrases.any (fun ph => strIn ph q) then
    { c with priority := CVal.multi v.priority }
  else c

/-- Phrase list of the fast extractor (chatbot.py:2610). -/
def fastPriorityPhrases : List (List Char) :=
  [s2l "all priority", s2l "priority tasks", s2l "priority task"]

/-- Phrase list of the fallback extractor (chatbot.py:2802). -/
def fallbackPriorityPhrases : List (List Char) :=
  [s2l "priority tasks", s2l "all priority tasks", s2l "priority task"]

/-- The status loop (chatbot.py:2614-2617). -/
def statusLoopStep (v : Vocab) (q : List Char) (c : Criteria) : Criteria :=
  match v.status.find? (fun st =>
      strIn st q || strIn (replaceStr (s2l " ") [] st) q) with
  | some st => { c with status := CVal.single st }
  | none => c

/-- The done-synonym override (chatbot.py:2620-2626): when the query contains
a done synonym, the first vocabulary status containing a synonym wins. -/
def doneSynonymStep (v : Vocab) (q : List Char) (c : Criteria) : Criteria :=
  if doneSynonymsList.any (fun syn => strIn syn q) then
    match v.status.find? statusHasDoneSyn with
    | some st => { c with status := CVal.single st }
    | none => c
  else c

/-- The issue-type loop (chatbot.py:2629-2632). -/
def issueLoopStep (v : Vocab) (q : List Char) (c : Criteria) : Criteria :=
  match v.issue_type.find? (fun it =>
      strIn it q || strIn (replaceStr (s2l " ") [] it) q) with
  | some it => { c with issue_type := CVal.single it }
  | none => c

/-- The plural handling (chatbot.py:2635-2638). -/
def pluralsStep (v : Vocab) (q : List Char) (c : Criteria) : Criteria :=
  if strIn (s2l "bugs") q && v.issue_type.contains (s2l "bug") then
    { c with issue_type := CVal.single (s2l "bug") }
  else if strIn (s2l "stories") q && v.issue_type.contains (s2l "story") then
    { c with issue_type := CVal.single (s2l "story") }
  else c

/-- The assignee vocabulary loop (chatbot.py:2641-2644). -/
def assigneeLoopStep (v : Vocab) (q : List Char) (c : Criteria) : Criteria :=
  match v.assignees.find? (fun a => strIn a q) with
  | some a => { c with assignee := CVal.single a }
  | none => c

/-- The assignee phrase patterns (chatbot.py:2647). -/
def assigneePatternsList : List (List Char) :=
  [s2l "with ", s2l "assigned to ", s2l "tasks assigned to "]

/-- The assignee phrase handling (chatbot.py:2646-2658).  `parts[1].split()[0]`
raises `IndexError` when the text after the first occurrence of the pattern
holds no token; that exception is modelled as `none`. -/
def assigneePatternsStep (v : Vocab) (q : List Char) (c : Criteria) :
    Option Criteria :=
  match assigneePatternsList.find? (fun pat => strIn pat q) with
  | none => some c
  | some pat =>
    let parts := splitOnStr pat q
    if 1 < parts.length then
      match splitWs (parts.getD 1 []) with
      | [] => none
      | potential :: _ =>
        match v.assignees.find? (fun a =>
            strIn potential a || strIn a potential) with
        | some a => some { c with assignee := CVal.single a }
        | none => some c
    else some c

/-- The composite fixed/resolved/completed-bugs phrases (chatbot.py:2661). -/
def fixedBugsPhrases : List (List Char) :=
  [s2l "fixed bugs", s2l "resolved bugs", s2l "completed bugs"]

/-- The fixed-bugs special handling of the fast extractor
(chatbot.py:2661-2670). -/
def fixedBugsSpecialStep (v : Vocab) (q : List Char) (c : Criteria) : Criteria :=
  if fixedBugsPhrases.any (fun ph => strIn ph q) then
    if c.issue_type = CVal.single (s2l "bug") ∧ cvalTruthy c.status then c
    else if c.issue_type = CVal.single (s2l "bug") then
      match v.status.find? statusHasDoneSyn with
      | some st => { c with status := CVal.single st }
      | none => c
    else c
  else c

/-- The fixed-bugs special handling of the fallback extractor
(chatbot.py:2833-2839), which only fills a missing status. -/
def fallbackFixedBugsStep (v : Vocab) (q : List Char) (c : Criteria) : Criteria :=
  if fixedBugsPhrases.any (fun ph => strIn ph q) then
    if c.issue_type = CVal.single (s2l "bug") ∧ ¬cvalTruthy c.status then
      match v.status.find? statusHasDoneSyn with
      | some st => { c with status := CVal.single st }
      | none => c
    else c
  else c

/-- The word cleaner of the keyword harvest, `re.sub(r'[^\w]', '', word)`
(chatbot.py:2675): unlike the fuzzy-correction cleaner it also strips
hyphens. -/
def cleanKeywordChars (w : List Char) : List Char :=
  w.filter isWordChar

/-- The keyword harvest of the fast extractor (chatbot.py:2673-2679). -/
def keywordsOf (knownWords : List (List Char)) (q : List Char) (c : Criteria) :
    List (List Char) :=
  (splitWs q).foldl (fun acc w =>
    let wc := cleanKeywordChars w
    if wc ≠ [] ∧ 2 < wc.length ∧
        ¬(cvalEqStr c.assignee wc || cvalEqStr c.priority wc ||
          cvalEqStr c.status wc || cvalEqStr c.issue_type wc) ∧
        ¬knownWords.contains wc then
      acc ++ [wc]
    else acc) []

/-- Final step of the fast extractor: attach the harvested keywords. -/
def keywordsStep (v : Vocab) (q : List Char) (c : Criteria) : Criteria :=
  { c with keywords := keywordsOf (knownWordsOf v) q c }

/-- The query part of a context-aware query (chatbot.py:2590-2593): the text
after the last `' | query: '` separator, lowercased. -/
def contextQueryPart (ctxq : List Char) : List Char :=
  if strIn (s2l " | query: ") ctxq then
    pyLower ((splitOnStr (s2l " | query: ") ctxq).getLastD [])
  else pyLower ctxq

/-- The body of `_extract_search_criteria_fast` (chatbot.py:2584-2682) without
its exception handler; `none` models a raised exception. -/
def extractSearchCriteriaFastCore (v : Vocab) (ctxq : List Char) :
    Option Criteria :=
  let q := contextQueryPart ctxq
  let c1 := priorityLoopStep v q emptyCriteria
  let c2 := priorityPhraseStep fastPriorityPhrases v q c1
  let c3 := statusLoopStep v q c2
  let c4 := doneSynonymStep v q c3
  let c5 := issueLoopStep v q c4
  let c6 := pluralsStep v q c5
  let c7 := assigneeLoopStep v q c6
  (assigneePatternsStep v q c7).map (fun c8 =>
    keywordsStep v q (fixedBugsSpecialStep v q c8))

/-- `_fallback_criteria_extraction` (chatbot.py:2763-2842); it has no
exception handler of its own, so a raised exception (`none`) propagates. -/
def fallbackCriteriaExtraction (v : Vocab) (query : List Char) :
    Option Criteria :=
  let q := pyLower query
  let c1 := assigneeLoopStep v q emptyCriteria
  (assigneePatternsStep v q c1).map (fun c2 =>
    let c3 := priorityLoopStep v q c2
    let c4 := priorityPhraseStep fallbackPriorityPhrases v q c3
    let c5 := statusLoopStep v q c4
    let c6 := doneSynonymStep v q c5
    let c7 := issueLoopStep v q c6
    let c8 := pluralsStep v q c7
    fallbackFixedBugsStep v q c8)

/-- `_extract_search_criteria_fast` with its exception handler
(chatbot.py:2684-2686): on an exception the deterministic fallback runs on the
same context query; an exception raised there propagates (`none`). -/
def extractSearchCriteriaFast (v : Vocab) (ctxq : List Char) :
    Option Criteria :=
  match extractSearchCriteriaFastCore v ctxq with
  | some c => some c
  | none => fallbackCriteriaExtraction v ctxq

/-- `_extract_single_criteria` (chatbot.py:2181-2226): per-category loops in
source order; `None` when no field was filled. -/
def extractSingleCriteria (v : Vocab) (part : List Char) : Option Criteria :=
  let c1 := priorityLoopStep v part emptyCriteria
  let c2 := statusLoopStep v part c1
  let c3 := issueLoopStep v part c2
  let c4 := assigneeLoopStep v part c3
  if cvalTruthy c4.priority || cvalTruthy c4.status ||
      cvalTruthy c4.issue_type || cvalTruthy c4.assignee then
    some c4
  else none

/-- The logic operator of a criteria-group list. -/
inductive LogicOp where
  | AND
  | OR
deriving DecidableEq

/-- The dictionary returned by `_parse_complex_query_logic`: the flat criteria
fields plus the operator list and the collected groups (an absent
`criteria_groups` key of the flat fast-extraction result is modelled as the
empty group list, which downstream code treats identically). -/
structure ParsedQuery where
  base : Criteria
  logic_ops : List LogicOp
  groups : List Criteria
deriving DecidableEq

/-- Wrap a flat criteria dictionary as a `ParsedQuery`. -/
def flatParsed (c : Criteria) : ParsedQuery := ⟨c, [], []⟩

/-- `_parse_complex_query_logic` (chatbot.py:2130-2179): split on `' and '`
(checked first) or `' or '`, extract criteria per stripped segment dropping
segments that yield none, and fall back to the flat fast extraction when
fewer than two groups survive; `none` models a propagated exception. -/
def parseComplexQueryLogic (v : Vocab) (query : List Char) :
    Option ParsedQuery :=
  let ql := pyStrip (pyLower query)
  if strIn (s2l " and ") ql then
    let gs := (splitOnStr (s2l " and ") ql).filterMap (fun part =>
      extractSingleCriteria v (pyStrip part))
    if 1 < gs.length then some ⟨emptyCriteria, [LogicOp.AND], gs⟩
    else (extractSearchCriteriaFast v query).map flatParsed
  else if strIn (s2l " or ") ql then
    let gs := (splitOnStr (s2l " or ") ql).filterMap (fun part =>
      extractSingleCriteria v (pyStrip part))
    if 1 < gs.length then some ⟨emptyCriteria, [LogicOp.OR], gs⟩
    else (extractSearchCriteriaFast v query).map flatParsed
  else
    let gs := (match extractSingleCriteria v ql with
      | some c => [c]
      | none => [])
    if 1 < gs.length then some ⟨emptyCriteria, [], gs⟩
    else (extractSearchCriteriaFast v query).map flatParsed

/-- Opening brace character (written via its code point). -/
def lbraceChar : Char := Char.ofNat 123

/-- Closing brace character. -/
def rbraceChar : Char := Char.ofNat 125

/-- Double-quote character. -/
def dquoteChar : Char := Char.ofNat 34

/-- Backslash character. -/
def bslashChar : Char := Char.ofNat 92

/-- Python values produced by `json.loads`: null, booleans, numbers (kept as
their raw text), strings, lists and dictionaries. -/
inductive JsonVal where
  | jnull
  | jbool (b : Bool)
  | jnum (raw : List Char)
  | jstr (s : List Char)
  | jarr (xs : List JsonVal)
  | jobj (fields : List (List Char × JsonVal))

/-- JSON inter-token whitespace. -/
def jsonWsChar (c : Char) : Bool :=
  c = ' ' || c = '\t' || c = '\n' || c = '\r'

/-- Skip JSON whitespace. -/
def skipJsonWs (s : List Char) : List Char := s.dropWhile jsonWsChar

/-- Decode one hexadecimal digit. -/
def hexDigitVal (c : Char) : Option Nat :=
  if c.isDigit then some (c.toNat - 48)
  else if 'a' ≤ c ∧ c ≤ 'f' then some (c.toNat - 87)
  else if 'A' ≤ c ∧ c ≤ 'F' then some (c.toNat - 55)
  else none

/-- Stand-in character for a lone surrogate kept by Python (a Lean `Char`
holds only Unicode scalar values, so the lone surrogate itself cannot be
represented; parse success or failure is unaffected). -/
def surrogateStandIn : Char := Char.ofNat 65533

/-- Parse a JSON string body (after the opening quote): returns the decoded
characters and the remaining input.  As in `json.loads` strict mode, a raw
control character (code point below 32) is rejected; `\uXXXX` surrogate pairs
are combined, a lone surrogate is kept (as `surrogateStandIn`). -/
def parseJStrGo : Nat → List Char → Option (List Char × List Char)
  | 0, _ => none
  | _, [] => none
  | fuel + 1, c :: rest =>
    if c = dquoteChar then some ([], rest)
    else if c = bslashChar then
      match rest with
      | [] => none
      | e :: rest2 =>
        if e = 'u' then
          match rest2 with
          | h1 :: h2 :: h3 :: h4 :: rest3 =>
            match hexDigitVal h1, hexDigitVal h2, hexDigitVal h3, hexDigitVal h4 with
            | some a, some b, some c2, some d =>
              let n := ((a * 16 + b) * 16 + c2) * 16 + d
              if 55296 ≤ n ∧ n ≤ 56319 then
                match rest3 with
                | e1 :: e2 :: g1 :: g2 :: g3 :: g4 :: rest4 =>
                  if e1 = bslashChar ∧ e2 = 'u' then
                    match hexDigitVal g1, hexDigitVal g2, hexDigitVal g3,
                        hexDigitVal g4 with
                    | some x1, some x2, some x3, some x4 =>
                      let m := ((x1 * 16 + x2) * 16 + x3) * 16 + x4
                      if 56320 ≤ m ∧ m ≤ 57343 then
                        (parseJStrGo fuel rest4).map (fun p =>
                          (Char.ofNat
                            (65536 + (n - 55296) * 1024 + (m - 56320)) ::
                              p.1, p.2))
                      else
                        (parseJStrGo fuel rest3).map (fun p =>
                          (surrogateStandIn :: p.1, p.2))
                    | _, _, _, _ =>
                      (parseJStrGo fuel rest3).map (fun p =>
                        (surrogateStandIn :: p.1, p.2))
                  else
                    (parseJStrGo fuel rest3).map (fun p =>
                      (surrogateStandIn :: p.1, p.2))
                | _ =>
                  (parseJStrGo fuel rest3).map (fun p =>
                    (surrogateStandIn :: p.1, p.2))
              else if 56320 ≤ n ∧ n ≤ 57343 then
                (parseJStrGo fuel rest3).map (fun p =>
                  (surrogateStandIn :: p.1, p.2))
              else
                (parseJStrGo fuel rest3).map (fun p =>
                  (Char.ofNat n :: p.1, p.2))
            | _, _, _, _ => none
          | _ => none
        else
          let esc : Option Char :=
            if e = dquoteChar then some dquoteChar
            else if e = bslashChar then some bslashChar
            else if e = '/' then some '/'
            else if e = 'b' then some '\x08'
            else if e = 'f' then some '\x0c'
            else if e = 'n' then some '\n'
            else if e = 'r' then some '\r'
            else if e = 't' then some '\t'
            else none
          match esc with
          | some ch => (parseJStrGo fuel rest2).map (fun p => (ch :: p.1, p.2))
          | none => none
    else if c.toNat < 32 then none
    else (parseJStrGo fuel rest).map (fun p => (c :: p.1, p.2))

/-- JSON string-body parser with sufficient fuel. -/
def parseJStr (s : List Char) : Option (List Char × List Char) :=
  parseJStrGo (s.length + 1) s

/-- Parse a JSON number, returning its raw text and the remaining input.  The
integer part follows the scanner regex `-?(0|[1-9]\d*)`: after a leading `0`
no further digits are consumed, so a leading-zero numeral like `01` leaves
trailing data and the overall parse fails. -/
def parseJNum (s : List Char) : Option (List Char × List Char) :=
  let (sign, s1) := match s with
    | c :: rest => if c = '-' then ([c], rest) else ([], s)
    | [] => ([], s)
  let intPart := match s1 with
    | c :: _ => if c = '0' then [c] else s1.takeWhile Char.isDigit
    | [] => ([] : List Char)
  if intPart = [] then none
  else
    let s2 := s1.drop intPart.length
    let (fracPart, s3) := match s2 with
      | c :: rest =>
        if c = '.' then
          let ds := rest.takeWhile Char.isDigit
          if ds = [] then ([], s2) else (c :: ds, rest.drop ds.length)
        else ([], s2)
      | [] => ([], s2)
    let (expPart, s4) := match s3 with
      | c :: rest =>
        if c = 'e' ∨ c = 'E' then
          let (es, rest2) := match rest with
            | d :: r2 => if d = '+' ∨ d = '-' then ([d], r2) else ([], rest)
            | [] => ([], rest)
          let ds := rest2.takeWhile Char.isDigit
          if ds = [] then ([], s3) else (c :: es ++ ds, rest2.drop ds.length)
        else ([], s3)
      | [] => ([], s3)
    some (sign ++ intPart ++ fracPart ++ expPart, s4)

/-- Python-dict insertion: an existing key keeps its position and takes the
new value. -/
def insertJKey (acc : List (List Char × JsonVal)) (k : List Char) (v : JsonVal) :
    List (List Char × JsonVal) :=
  if acc.any (fun p => p.1 = k) then
    acc.map (fun p => if p.1 = k then (k, v) else p)
  else acc ++ [(k, v)]

mutual

/-- Parse one JSON value at the head of the input. -/
def parseJVal : Nat → List Char → Option (JsonVal × List Char)
  | 0, _ => none
  | fuel + 1, s =>
    match s with
    | [] => none
    | c :: rest =>
      if c = 'n' then
        if (s2l "ull").isPrefixOf rest then some (JsonVal.jnull, rest.drop 3)
        else none
      else if c = 't' then
        if (s2l "rue").isPrefixOf rest then some (JsonVal.jbool true, rest.drop 3)
        else none
      else if c = 'f' then
        if (s2l "alse").isPrefixOf rest then
          some (JsonVal.jbool false, rest.drop 4)
        else none
      else if c = dquoteChar then
        (parseJStr rest).map (fun p => (JsonVal.jstr p.1, p.2))
      else if c = '[' then
        match skipJsonWs rest with
        | d :: r2 => if d = ']' then some (JsonVal.jarr [], r2)
                     else parseJArr fuel (skipJsonWs rest) []
        | [] => none
      else if c = lbraceChar then
        match skipJsonWs rest with
        | d :: r2 => if d = rbraceChar then some (JsonVal.jobj [], r2)
                     else parseJObj fuel (skipJsonWs rest) []
        | [] => none
      else if c = 'N' then
        if (s2l "aN").isPrefixOf rest then
          some (JsonVal.jnum (s2l "NaN"), rest.drop 2)
        else none
      else if c = 'I' then
        if (s2l "nfinity").isPrefixOf rest then
          some (JsonVal.jnum (s2l "Infinity"), rest.drop 7)
        else none
      else if c = '-' ∨ c.isDigit then
        match parseJNum s with
        | some p => some (JsonVal.jnum p.1, p.2)
        | none =>
          if c = '-' ∧ (s2l "Infinity").isPrefixOf rest then
            some (JsonVal.jnum (s2l "-Infinity"), rest.drop 8)
          else none
      else none

/-- Parse the elements of a non-empty JSON array (position: at a value). -/
def parseJArr : Nat → List Char → List JsonVal → Option (JsonVal × List Char)
  | 0, _, _ => none
  | fuel + 1, s, acc =>
    match parseJVal fuel s with
    | none => none
    | some (v, rest) =>
      match skipJsonWs rest with
      | c :: r2 =>
        if c = ',' then parseJArr fuel (skipJsonWs r2) (acc ++ [v])
        else if c = ']' then some (JsonVal.jarr (acc ++ [v]), r2)
        else none
      | [] => none

/-- Parse the fields of a non-empty JSON object (position: at a key);
duplicate keys follow Python-dict semantics via `insertJKey`. -/
def parseJObj : Nat → List Char → List (List Char × JsonVal) →
    Option (JsonVal × List Char)
  | 0, _, _ => none
  | fuel + 1, s, acc =>
    match s with
    | c :: rest =>
      if c = dquoteChar then
        match parseJStr rest with
        | none => none
        | some (key, r2) =>
          match skipJsonWs r2 with
          | d :: r3 =>
            if d = ':' then
              match parseJVal fuel (skipJsonWs r3) with
              | none => none
              | some (v, r4) =>
                match skipJsonWs r4 with
                | e :: r5 =>
                  if e = ',' then
                    parseJObj fuel (skipJsonWs r5) (insertJKey acc key v)
                  else if e = rbraceChar then
                    some (JsonVal.jobj (insertJKey acc key v), r5)
                  else none
                | [] => none
            else none
          | [] => none
      else none
    | [] => none

end

/-- Model of Python's `json.loads`: the standard JSON grammar plus the
`NaN`/`Infinity`/`-Infinity` constants accepted by default.  Numbers follow
the scanner shape `(-?(0|[1-9]\d*))(\.\d+)?([eE][-+]?\d+)?` (leading-zero
numerals fail as trailing data), and raw control characters inside string
literals are rejected as in strict mode.  `none` is a `JSONDecodeError`. -/
def jsonLoads (s : List Char) : Option JsonVal :=
  match parseJVal (s.length + 1) (skipJsonWs s) with
  | some (v, rest) => if skipJsonWs rest = [] then some v else none
  | none => none

/-- The fallback-extractor output viewed as the runtime dictionary it is in
Python (used when its result flows into code written against the JSON
shape). -/
def cvalToJson : CVal → JsonVal
  | CVal.absent => JsonVal.jnull
  | CVal.single s => JsonVal.jstr s
  | CVal.multi l => JsonVal.jarr (l.map JsonVal.jstr)

/-- The criteria dictionary as a Python value. -/
def criteriaToJson (c : Criteria) : JsonVal :=
  JsonVal.jobj
    [(s2l "assignee", cvalToJson c.assignee),
     (s2l "priority", cvalToJson c.priority),
     (s2l "status", cvalToJson c.status),
     (s2l "issue_type", cvalToJson c.issue_type),
     (s2l "keywords", JsonVal.jarr (c.keywords.map JsonVal.jstr))]

/-- Outcome of `_extract_search_criteria_with_llm`: the parsed JSON value
returned as-is, the fallback-extractor result, or a propagated exception. -/
inductive LlmExtractOutcome where
  | parsed (j : JsonVal)
  | fell (c : Criteria)
  | raised

/-- The code-fence stripping of `_extract_search_criteria_with_llm`
(chatbot.py:3449-3453). -/
def stripCodeFences (resp : List Char) : List Char :=
  let t0 := pyStrip resp
  let t1 := if (s2l "```json").isPrefixOf t0 then t0.drop 7 else t0
  if (s2l "```").isSuffixOf t1 then t1.take (t1.length - 3) else t1

/-- `_extract_search_criteria_with_llm` (chatbot.py:3383-3466) with the
generative-model response supplied as a parameter: any JSON-parsable output is
returned without shape validation; a `JSONDecodeError` triggers the
deterministic fallback on the same context query; an exception raised by that
fallback is caught by the outer handler, which calls the fallback again and
therefore re-raises. -/
def extractSearchCriteriaWithLlm (v : Vocab) (ctxq resp : List Char) :
    LlmExtractOutcome :=
  match jsonLoads (pyStrip (stripCodeFences resp)) with
  | some j => LlmExtractOutcome.parsed j
  | none =>
    match fallbackCriteriaExtraction v ctxq with
    | some c => LlmExtractOutcome.fell c
    | none =>
      match fallbackCriteriaExtraction v ctxq with
      | some c => LlmExtractOutcome.fell c
      | none => LlmExtractOutcome.raised

/-- Document metadata as stored in the vector store; absent keys are `none`
(`metadata.get(key, '')` then yields the empty string). -/
structure Metadata where
  task_id : Option (List Char)
  status : Option (List Char)
  priority : Option (List Char)
  assignee : Option (List Char)
  reporter : Option (List Char)
  issue_type : Option (List Char)
  resolution : Option (List Char)
  project_id : Option (List Char)
  sprint_id : Option (List Char)
deriving DecidableEq

/-- `metadata.get(key, '')`. -/
def mdGet (o : Option (List Char)) : List Char := o.getD []

/-- One stored document: page content plus metadata (the parallel
`documents` / `metadatas` arrays of `vectorstore.get()`). -/
structure Doc where
  content : List Char
  metadata : Metadata
deriving DecidableEq

/-- Python truthiness of an optional string filter argument (`None` and the
empty string are both falsy). -/
def truthyOpt : Option (List Char) → Bool
  | none => false
  | some s => s ≠ []

/-- The string carried by an optional filter. -/
def optStr : Option (List Char) → List Char
  | none => []
  | some s => s

/-- A scored search result (relevance scores are modelled as rationals). -/
structure SearchResult where
  content : List Char
  metadata : Metadata
  score : Rat
deriving DecidableEq

/-- The vector store interface: the full corpus (`get()`) and the similarity
search (`similarity_search_with_relevance_scores`), the latter abstracted as a
function of query text and `k`. -/
structure VectorStore where
  corpus : List Doc
  simSearch : List Char → Nat → List (Doc × Rat)

/-- Equality-style criteria check used by `_targeted_search` and
`_apply_intelligent_filtering` for priority/status/issue type: scalar →
case-insensitive equality, list → case-insensitive membership
(chatbot.py:2898-2934). -/
def eqFieldOk (cv : CVal) (mdval : List Char) : Bool :=
  match cv with
  | CVal.absent => true
  | CVal.single s => mdval = pyLower s
  | CVal.multi l => (l.map pyLower).contains mdval

/-- Containment-style assignee check: scalar → substring, list → any
substring (chatbot.py:2885-2895). -/
def assigneeFieldOk (cv : CVal) (mdval : List Char) : Bool :=
  match cv with
  | CVal.absent => true
  | CVal.single s => strIn (pyLower s) mdval
  | CVal.multi l => l.any (fun s => strIn (pyLower s) mdval)

/-- Python truthiness of `search_criteria.get(field)` before each check: an
empty string and an empty list are falsy, so those checks are skipped. -/
def fieldActive (cv : CVal) : Bool := cvalTruthy cv

/-- The sprint+project condition of `_targeted_search`
(chatbot.py:2878-2879). -/
def matchesSprintProject (sf pf : List Char) (md : Metadata) : Bool :=
  pyLower (mdGet md.sprint_id) = pyLower sf &&
    pyLower (mdGet md.project_id) = pyLower pf

/-- The criteria conditions of `_targeted_search` (chatbot.py:2882-2934). -/
def targetedCriteriaOk (c : Criteria) (md : Metadata) : Bool :=
  (!fieldActive c.assignee || assigneeFieldOk c.assignee (pyLower (mdGet md.assignee))) &&
  (!fieldActive c.priority || eqFieldOk c.priority (pyLower (mdGet md.priority))) &&
  (!fieldActive c.status || eqFieldOk c.status (pyLower (mdGet md.status))) &&
  (!fieldActive c.issue_type || eqFieldOk c.issue_type (pyLower (mdGet md.issue_type)))

/-- `_targeted_search` (chatbot.py:2867-2950): scan the whole corpus, keep
documents matching sprint, project and the extracted criteria, and give every
kept document relevance score 1.0. -/
def targetedSearch (corpus : List Doc) (sf pf : List Char) (c : Criteria) :
    List SearchResult :=
  match corpus with
  | [] => []
  | d :: rest =>
    if matchesSprintProject sf pf d.metadata ∧ targetedCriteriaOk c d.metadata then
      ⟨d.content, d.metadata, 1⟩ :: targetedSearch rest sf pf c
    else
      targetedSearch rest sf pf c

/-- Stable descending insertion by relevance score: an element goes before
the first element whose score does not exceed it (elements processed later by
the fold come from earlier in the original list). -/
def insertByScore (x : SearchResult) : List SearchResult → List SearchResult
  | [] => [x]
  | y :: ys => if y.score ≤ x.score then x :: y :: ys else y :: insertByScore x ys

/-- Python's stable `list.sort(key=score, reverse=True)`. -/
def sortByScoreDesc (l : List SearchResult) : List SearchResult :=
  l.foldr insertByScore []

/-- `_hybrid_search` (chatbot.py:2952-2995): similarity search with k = 50,
then post-filtering on whichever structural filter is present, then a
descending sort by score. -/
def hybridSearch (store : VectorStore) (ctxq : List Char)
    (sf pf : Option (List Char)) : List SearchResult :=
  let results := (store.simSearch ctxq 50).map (fun p =>
    SearchResult.mk p.1.content p.1.metadata p.2)
  let filtered := results.filter (fun r =>
    (!truthyOpt sf || (pyLower (mdGet r.metadata.sprint_id) = pyLower (optStr sf))) &&
    (!truthyOpt pf || (pyLower (mdGet r.metadata.project_id) = pyLower (optStr pf))))
  sortByScoreDesc filtered

/-- `_semantic_search` (chatbot.py:2997-3019): similarity search with k = 25,
returned as-is. -/
def semanticSearch (store : VectorStore) (ctxq : List Char) : List SearchResult :=
  (store.simSearch ctxq 25).map (fun p =>
    SearchResult.mk p.1.content p.1.metadata p.2)

/-- `_perform_intelligent_search` (chatbot.py:2844-2865): strategy selection
on which structural filters are truthy. -/
def performIntelligentSearch (store : VectorStore) (ctxq : List Char)
    (c : Criteria) (sf pf : Option (List Char)) : List SearchResult :=
  if truthyOpt sf && truthyOpt pf then
    targetedSearch store.corpus (optStr sf) (optStr pf) c
  else if truthyOpt sf || truthyOpt pf then
    hybridSearch store ctxq sf pf
  else
    semanticSearch store ctxq

/-- `_apply_intelligent_filtering` (chatbot.py:3021-3103): criteria filtering
(`None` criteria pass everything through) followed by the unconditional
project-filter enforcement pass.  Its `sprint_filter` parameter is unused in
the source as well. -/
def applyIntelligentFiltering (results : List SearchResult)
    (c : Option Criteria) (_sf pf : Option (List Char)) : List SearchResult :=
  match c with
  | none => results
  | some crit =>
    let filtered := results.filter (fun r =>
      targetedCriteriaOk crit r.metadata)
    if truthyOpt pf then
      filtered.filter (fun r =>
        pyLower (mdGet r.metadata.project_id) = pyLower (optStr pf))
    else filtered

/-- Monadic filter over an exception-throwing predicate: the loop aborts with
the first raised exception (`none`), matching Python control flow. -/
def filterO (f : α → Option Bool) : List α → Option (List α)
  | [] => some []
  | x :: xs =>
    match f x with
    | none => none
    | some b => (filterO f xs).map (fun r => if b then x :: r else r)

/-- The scalar-only status check of the fast path and the structured
extraction (chatbot.py:3334-3338): a list-valued criterion raises
`AttributeError` on `.lower()`, modelled as `none`. -/
def scalarEqCheck (cv : CVal) (mdval : List Char) : Option Bool :=
  match cv with
  | CVal.absent => some true
  | CVal.single s => some (decide (mdval = pyLower s))
  | CVal.multi _ => none

/-- The scalar-only assignee containment check of the fast path
(chatbot.py:3348-3352). -/
def scalarContainCheck (cv : CVal) (mdval : List Char) : Option Bool :=
  match cv with
  | CVal.absent => some true
  | CVal.single s => some (strIn (pyLower s) mdval)
  | CVal.multi _ => none

/-- Per-document decision of `_fast_simple_query` (chatbot.py:3308-3355):
sprint and project `continue` checks, then the criteria checks, all of which
are evaluated even after one has failed (Python sets `include = False` and
keeps checking, so a later exception still aborts the query). -/
def fastKeepDoc (c : Criteria) (sf pf : Option (List Char)) (md : Metadata) :
    Option Bool :=
  if truthyOpt sf ∧ pyLower (mdGet md.sprint_id) ≠ pyLower (optStr sf) then
    some false
  else if truthyOpt pf ∧ pyLower (mdGet md.project_id) ≠ pyLower (optStr pf) then
    some false
  else
    let pb := if fieldActive c.priority then
        some (eqFieldOk c.priority (pyLower (mdGet md.priority)))
      else some true
    let sb := if fieldActive c.status then
        scalarEqCheck c.status (pyLower (mdGet md.status))
      else some true
    let ib := if fieldActive c.issue_type then
        scalarEqCheck c.issue_type (pyLower (mdGet md.issue_type))
      else some true
    let ab := if fieldActive c.assignee then
        scalarContainCheck c.assignee (pyLower (mdGet md.assignee))
      else some true
    pb.bind (fun b1 => sb.bind (fun b2 => ib.bind (fun b3 => ab.map (fun b4 =>
      b1 && b2 && b3 && b4))))

/-- The document-selection part of `_fast_simple_query`
(chatbot.py:3288-3355): sanitize the query, run the fast criteria extractor,
and filter the whole corpus.  `none` models an exception caught by the
method's handler (which then returns an error string instead of results). -/
def fastSimpleQueryKept (gcm : GcmFun) (v : Vocab) (corpus : List Doc)
    (q : List Char) (sf pf : Option (List Char)) : Option (List Doc) :=
  let q1 := sanitizeQuery gcm v q
  (extractSearchCriteriaFast v q1).bind (fun c =>
    filterO (fun d => fastKeepDoc c sf pf d.metadata) corpus)

/-- `get_dynamic_k` (chatbot.py:3155-3183). -/
def getDynamicK (corpus : List Doc) (q : List Char) (sf pf : Option (List Char)) :
    Nat :=
  let total := corpus.length
  if truthyOpt sf && truthyOpt pf then min 30 total
  else if truthyOpt sf then min 40 total
  else if strIn (s2l "all") (pyLower q) || strIn (s2l "list") (pyLower q) then
    min 25 total
  else min 20 total

/-- The keyword-based narrowing chain of `process_query`
(chatbot.py:3216-3253): first matching keyword family decides, via document
content; documents match no family fall through to inclusion. -/
def keywordNarrowKeep (ql cl : List Char) : Bool :=
  if [s2l "high priority", s2l "priority high", s2l "high"].any (fun k => strIn k ql) then
    strIn (s2l "priority: high") cl
  else if [s2l "medium priority", s2l "priority medium", s2l "medium"].any (fun k => strIn k ql) then
    strIn (s2l "priority: medium") cl
  else if [s2l "low priority", s2l "priority low", s2l "low"].any (fun k => strIn k ql) then
    strIn (s2l "priority: low") cl
  else if [s2l "done", s2l "completed", s2l "finished"].any (fun k => strIn k ql) then
    strIn (s2l "status: done") cl
  else if [s2l "in progress", s2l "progress"].any (fun k => strIn k ql) then
    strIn (s2l "status: in progress") cl
  else if [s2l "to do", s2l "todo", s2l "pending"].any (fun k => strIn k ql) then
    strIn (s2l "status: to do") cl
  else if [s2l "in review", s2l "review"].any (fun k => strIn k ql) then
    strIn (s2l "status: in review") cl
  else if [s2l "bug", s2l "bugs"].any (fun k => strIn k ql) then
    strIn (s2l "issue type: bug") cl
  else if [s2l "story", s2l "stories"].any (fun k => strIn k ql) then
    strIn (s2l "issue type: story") cl
  else if [s2l "task", s2l "tasks"].any (fun k => strIn k ql) then
    strIn (s2l "issue type: task") cl
  else true

/-- The record-retrieval part of the generative path of `process_query`
(chatbot.py:3197-3264): with a truthy sprint filter, scan the corpus by
sprint and narrow by content keywords unless the query is one of the two
canonical show-all phrases; otherwise run the vector search (abstracted as
`simVec`).  The `project_filter` argument of `process_query` is not consulted
anywhere on this path. -/
def slowPathDocs (corpus : List Doc) (simVec : List Char → Nat → List Doc)
    (q : List Char) (sf : Option (List Char)) : List Doc :=
  if truthyOpt sf then
    let filtered := corpus.filter (fun d =>
      pyLower (mdGet d.metadata.sprint_id) = pyLower (optStr sf))
    if pyLower q ≠ s2l "show all tasks" ∧ pyLower q ≠ s2l "list all tasks" then
      filtered.filter (fun d => keywordNarrowKeep (pyLower q) (pyLower d.content))
    else filtered
  else
    simVec q (getDynamicK corpus q sf none)

/-- Which path `process_query` takes, with the record set that path filters
(the fast path later renders its kept documents as a count summary, the slow
path hands its documents to the generative model). -/
inductive ProcessPath where
  | fastP (kept : Option (List Doc))
  | slowP (docs : List Doc)
deriving DecidableEq

/-- The dispatch and record-selection of `process_query`
(chatbot.py:3185-3264): the classifier alone decides the path. -/
def processQueryPath (gcm : GcmFun) (v : Vocab) (corpus : List Doc)
    (simVec : List Char → Nat → List Doc) (q : List Char)
    (sf pf : Option (List Char)) : ProcessPath :=
  if shouldUseLlm v q then
    ProcessPath.slowP (slowPathDocs corpus simVec q sf)
  else
    ProcessPath.fastP (fastSimpleQueryKept gcm v corpus q sf pf)

/-- `dict.get(key)` on a parsed criteria value; a non-dictionary raises
`AttributeError` (`none`). -/
def jsonGet (j : JsonVal) (key : List Char) : Option JsonVal :=
  match j with
  | JsonVal.jobj fields =>
    some ((fields.find? (fun p => p.1 = key)).map Prod.snd |>.getD JsonVal.jnull)
  | _ => none

/-- Python truthiness of a parsed JSON value.  The float constants
`NaN`/`Infinity`/`-Infinity` are truthy; a finite numeral is truthy iff some
mantissa digit is non-zero (float underflow of an extreme negative exponent
to `0.0` is a floating-point effect left outside the model). -/
def jsonTruthy : JsonVal → Bool
  | JsonVal.jnull => false
  | JsonVal.jbool b => b
  | JsonVal.jnum raw =>
    if raw = s2l "NaN" ∨ raw = s2l "Infinity" ∨ raw = s2l "-Infinity" then
      true
    else
      (raw.takeWhile (fun c => c ≠ 'e' ∧ c ≠ 'E')).any (fun c =>
        c.isDigit ∧ c ≠ '0')
  | JsonVal.jstr s => s ≠ []
  | JsonVal.jarr xs => !xs.isEmpty
  | JsonVal.jobj fields => !fields.isEmpty

/-- `.lower()` on a parsed JSON value: only strings support it. -/
def jsonStrLower : JsonVal → Option (List Char)
  | JsonVal.jstr s => some (pyLower s)
  | _ => none

/-- The priority check of `extract_structured_tasks` (chatbot.py:3525-3533):
lists are lowered element-wise (non-string elements raise), scalars must be
strings. -/
def jsonPriorityCheck (jc : JsonVal) (mdval : List Char) : Option Bool :=
  (jsonGet jc (s2l "priority")).bind (fun p =>
    if jsonTruthy p then
      match p with
      | JsonVal.jarr xs =>
        (xs.mapM jsonStrLower).map (fun ls => ls.contains mdval)
      | _ => (jsonStrLower p).map (fun s => decide (mdval = s))
    else some true)

/-- The scalar-only equality checks of `extract_structured_tasks`
(chatbot.py:3536-3547). -/
def jsonScalarEqCheck (jc : JsonVal) (key mdval : List Char) : Option Bool :=
  (jsonGet jc key).bind (fun p =>
    if jsonTruthy p then
      (jsonStrLower p).map (fun s => decide (mdval = s))
    else some true)

/-- The assignee containment check of `extract_structured_tasks`
(chatbot.py:3550-3554). -/
def jsonAssigneeCheck (jc : JsonVal) (mdval : List Char) : Option Bool :=
  (jsonGet jc (s2l "assignee")).bind (fun p =>
    if jsonTruthy p then
      (jsonStrLower p).map (fun s => strIn s mdval)
    else some true)

/-- Per-document decision of `extract_structured_tasks`
(chatbot.py:3510-3556): sprint and project `continue` checks first, then the
LLM-criteria checks. -/
def structuredKeepDoc (jc : JsonVal) (sf pf : Option (List Char))
    (md : Metadata) : Option Bool :=
  if truthyOpt sf ∧ pyLower (mdGet md.sprint_id) ≠ pyLower (optStr sf) then
    some false
  else if truthyOpt pf ∧ pyLower (mdGet md.project_id) ≠ pyLower (optStr pf) then
    some false
  else
    (jsonPriorityCheck jc (pyLower (mdGet md.priority))).bind (fun b1 =>
    (jsonScalarEqCheck jc (s2l "status") (pyLower (mdGet md.status))).bind (fun b2 =>
    (jsonScalarEqCheck jc (s2l "issue_type") (pyLower (mdGet md.issue_type))).bind (fun b3 =>
    (jsonAssigneeCheck jc (pyLower (mdGet md.assignee))).map (fun b4 =>
      b1 && b2 && b3 && b4))))

/-- `_build_context_aware_query` (chatbot.py:3468-3491). -/
def buildContextAwareQuery (q : List Char) (sf pf : Option (List Char)) :
    List Char :=
  let parts := [s2l "Query: " ++ q] ++
    (if truthyOpt sf then [s2l "Sprint: " ++ optStr sf] else []) ++
    (if truthyOpt pf then [s2l "Project: " ++ optStr pf] else [])
  List.intercalate (s2l " | ") parts

/-- The document-selection part of `extract_structured_tasks`
(chatbot.py:3493-3560): build the context query, extract criteria via the
generative model (response supplied as a parameter), and filter the corpus;
`none` models an exception, which makes the method return `[]`. -/
def extractStructuredTasksKept (v : Vocab) (resp : List Char)
    (corpus : List Doc) (q : List Char) (sf pf : Option (List Char)) :
    Option (List Doc) :=
  let ctxq := buildContextAwareQuery q sf pf
  match extractSearchCriteriaWithLlm v ctxq resp with
  | LlmExtractOutcome.raised => none
  | LlmExtractOutcome.parsed j =>
    filterO (fun d => structuredKeepDoc j sf pf d.metadata) corpus
  | LlmExtractOutcome.fell c =>
    filterO (fun d => structuredKeepDoc (criteriaToJson c) sf pf d.metadata) corpus

/-- The structured task record assembled by `extract_structured_tasks`
(chatbot.py:3581-3593). -/
structure TaskData where
  id : List Char
  title : List Char
  description : List Char
  status : List Char
  priority : List Char
  assignee : List Char
  reporter : List Char
  issue_type : List Char
  resolution : List Char
  project : List Char
  sprint : List Char
deriving DecidableEq

/-- Title parsing of `extract_structured_tasks` (chatbot.py:3571-3578). -/
def titleOf (content : List Char) : List Char :=
  if content ≠ [] then
    let parts := splitOnStr (s2l "Title: ") content
    if 1 < parts.length then
      pyStrip ((splitOnStr (s2l "\n") (parts.getD 1 [])).getD 0 [])
    else s2l "Unknown Title"
  else s2l "Unknown Title"

/-- Conversion of a kept document to a `TaskData` with the documented default
fallbacks (chatbot.py:3581-3593). -/
def toTaskData (d : Doc) : TaskData :=
  ⟨d.metadata.task_id.getD (s2l "Unknown"),
   titleOf d.content,
   (if d.content ≠ [] then d.content else s2l "No description available"),
   d.metadata.status.getD (s2l "Unknown"),
   d.metadata.priority.getD (s2l "Medium"),
   d.metadata.assignee.getD (s2l "Unassigned"),
   d.metadata.reporter.getD (s2l "Unknown"),
   d.metadata.issue_type.getD (s2l "Task"),
   d.metadata.resolution.getD (s2l "Unresolved"),
   d.metadata.project_id.getD (s2l "Unknown Project"),
   d.metadata.sprint_id.getD (s2l "Unknown Sprint")⟩

/-- `extract_structured_tasks` (chatbot.py:3493-3602): kept documents become
task records; any exception yields the empty list. -/
def extractStructuredTasks (v : Vocab) (resp : List Char) (corpus : List Doc)
    (q : List Char) (sf pf : Option (List Char)) : List TaskData :=
  match extractStructuredTasksKept v resp corpus q sf pf with
  | some kept => kept.map toTaskData
  | none => []

/-- Degenerate fuzzy matcher used in the concrete evaluations below.  On every
concrete trace in this file the fuzzy cascade is either never reached (the
looked-up tokens are exact members of `known_words` or shorter than two
characters) or its outcome agrees with the containment fallback, so the
traced results coincide with the Python behaviour for the real
`difflib.get_close_matches`. -/
def gcm0 : GcmFun := fun _ _ => none

/-- Small vocabulary: priorities high/medium/low, status done, issue type
task. -/
def vocabA : Vocab :=
  ⟨[s2l "high", s2l "medium", s2l "low"], [s2l "done"], [s2l "task"],
   [], [], []⟩

/-- Small vocabulary: priority high, status done, issue type bug. -/
def vocabB : Vocab :=
  ⟨[s2l "high"], [s2l "done"], [s2l "bug"], [], [], []⟩

/-- Vocabulary whose status value `"x bt"` has the acronym `xb` and whose
priority value `"big things"` has the acronym `bt`; built by the vocabulary
builder from a corpus holding those metadata values. -/
def vocabC : Vocab :=
  ⟨[s2l "big things"], [s2l "x bt"], [], [], [], []⟩

/-- A record of project Beta in sprint S1. -/
def mdBeta : Metadata :=
  ⟨some (s2l "T2"), some (s2l "In Progress"), some (s2l "Low"),
   some (s2l "bob"), none, some (s2l "Task"), none, some (s2l "Beta"),
   some (s2l "S1")⟩

/-- Document of project Beta in sprint S1. -/
def docBeta : Doc := ⟨s2l "Task ID: T2", mdBeta⟩

/-- Vector search stub (never consulted on the traced paths). -/
def simVec0 : List Char → Nat → List Doc := fun _ _ => []

/-- A low-priority record in sprint S1 of project P1. -/
def mdLow : Metadata :=
  ⟨some (s2l "T1"), some (s2l "Done"), some (s2l "Low"), none, none,
   some (s2l "Bug"), none, some (s2l "P1"), some (s2l "S1")⟩

/-- Document carrying `mdLow`. -/
def docLow : Doc := ⟨s2l "doc1", mdLow⟩

/-- Criteria asking for high priority only. -/
def critHigh : Criteria :=
  ⟨CVal.absent, CVal.single (s2l "high"), CVal.absent, CVal.absent, []⟩

/-- Store around `docLow` whose similarity search returns nothing. -/
def storeA : VectorStore := ⟨[docLow], fun _ _ => []⟩

/-- A high-priority done bug in sprint S1 of project P1. -/
def mdBug : Metadata :=
  ⟨some (s2l "T3"), some (s2l "Done"), some (s2l "High"), none, none,
   some (s2l "Bug"), none, some (s2l "P1"), some (s2l "S1")⟩

/-- Document carrying `mdBug`. -/
def docBug : Doc := ⟨s2l "doc3", mdBug⟩

/-- A record whose metadata has no sprint identifier. -/
def mdNoSprint : Metadata :=
  ⟨some (s2l "T4"), some (s2l "Done"), some (s2l "High"), none, none,
   some (s2l "Bug"), none, some (s2l "P1"), none⟩

/-- Document carrying `mdNoSprint`. -/
def docNoSprint : Doc := ⟨s2l "doc4", mdNoSprint⟩

/-- The head of a string, if any, is not whitespace (helper predicate of the
idempotence analysis of the final sanitization pass). -/
def headNotSpaceB : List Char → Bool
  | [] => true
  | c :: _ => !isPySpace c

/-- A string is a fixed point of `collapseWs` exactly when every whitespace
character in it is a plain space that is not followed by further
whitespace. -/
def collapsedOk : List Char → Bool
  | [] => true
  | c :: rest =>
    (if isPySpace c then c = ' ' && headNotSpaceB rest else true) &&
      collapsedOk rest

/-- C1: with `projectFilter = "alpha"`, the generative path of `process_query`
returns the sprint-filtered record of project Beta — the project filter is
never reapplied on that path, violating the claimed hard invariant.  (The
classifier sends `"show all tasks"` to the generative path because `"how"` is
a substring of `"show"`.) -/
theorem C1_project_filter_not_reapplied_on_generative_path :
    processQueryPath gcm0 vocabA [docBeta] simVec0 (s2l "show all tasks")
        (some (s2l "s1")) (some (s2l "alpha")) = ProcessPath.slowP [docBeta] ∧
    pyLower (mdGet mdBeta.project_id) ≠ pyLower (s2l "alpha") := by
  constructor
  · decide
  · decide

/-- The filtering pass `_apply_intelligent_filtering` itself does enforce the
project filter unconditionally (its final pass), in contrast to the
generative path of `process_query`. -/
theorem applyIntelligentFiltering_enforces_project_filter
    (results : List SearchResult) (c : Option Criteria)
    (sf pf : Option (List Char)) (r : SearchResult)
    (hc : c ≠ none) (hpf : truthyOpt pf = true)
    (hr : r ∈ applyIntelligentFiltering results c sf pf) :
    pyLower (mdGet r.metadata.project_id) = pyLower (optStr pf) := by
  match c with
  | none => exact absurd rfl hc
  | some crit =>
    simp only [applyIntelligentFiltering, hpf, if_pos] at hr
    have := List.of_mem_filter hr
    simpa using this

/-- C2 counterexample: on the same corpus, query and context, the fast path
keeps no record (the project filter excludes the Beta record) while the
generative path's filtering keeps it. -/
theorem C2_fast_and_generative_record_sets_differ :
    fastSimpleQueryKept gcm0 vocabA [docBeta] (s2l "list all tasks")
        (some (s2l "s1")) (some (s2l "alpha")) = some [] ∧
    slowPathDocs [docBeta] simVec0 (s2l "list all tasks") (some (s2l "s1")) =
      [docBeta] ∧
    (some ([] : List Doc) ≠ some [docBeta]) := by
  refine ⟨by decide, by decide, by decide⟩

/-- C3 counterexample: the full normalization pipeline is not idempotent.
With a vocabulary holding priority `"big things"` (acronym `bt`) and status
`"x bt"` (acronym `xb`), the input `"xb"` normalizes to `"x bt"`, whose
normalization expands the now-exposed `bt` to `"x big things"`.  No fuzzy
lookup is reached on this trace (every token is an exact known word or
shorter than two characters). -/
theorem C3_normalize_not_idempotent :
    sanitizeQuery gcm0 vocabC (sanitizeQuery gcm0 vocabC (s2l "xb")) ≠
      sanitizeQuery gcm0 vocabC (s2l "xb") := by
  decide

/-- C4 counterexample: an 8-word query with no term from the
analytical/comparative/temporal/quantitative keyword set and no vocabulary
category match still requires the generative model, because it contains the
natural-language indicator `"which"` — a condition the claim omits. -/
theorem C4_natural_language_query_needs_llm :
    (splitWs (pyStrip (pyLower (s2l "which bb cc dd ee ff gg hh")))).length = 8 ∧
    hasComplexPatterns (pyStrip (pyLower (s2l "which bb cc dd ee ff gg hh"))) =
      false ∧
    criteriaCount vocabA (pyStrip (pyLower (s2l "which bb cc dd ee ff gg hh"))) ≤
      2 ∧
    shouldUseLlm vocabA (s2l "which bb cc dd ee ff gg hh") = true := by
  refine ⟨by decide, by decide, by decide, by decide⟩

/-- C5 counterexample: with both filters supplied, the targeted strategy does
not keep every sprint/project match: a record matching sprint and project but
not the extracted criteria (here priority `high`) is dropped. -/
theorem C5_targeted_search_also_filters_criteria :
    performIntelligentSearch storeA (s2l "high priority bugs") critHigh
        (some (s2l "s1")) (some (s2l "p1")) = [] ∧
    [docLow].filter (fun d => matchesSprintProject (s2l "s1") (s2l "p1")
      d.metadata) = [docLow] := by
  refine ⟨by decide, by decide⟩

/-- C6 counterexample: `"done and qqq"` contains the connective `" and "` and
splits into two segments, yet the parser returns no criteria groups at all:
the segment `"qqq"` yields no criteria and is dropped, leaving one group, so
the whole query falls back to the flat fast extraction. -/
theorem C6_segment_without_criteria_dropped :
    parseComplexQueryLogic vocabB (s2l "done and qqq") =
      some ⟨⟨CVal.absent, CVal.absent, CVal.single (s2l "done"), CVal.absent,
        [s2l "qqq"]⟩, [], []⟩ ∧
    (splitOnStr (s2l " and ") (s2l "done and qqq")).length = 2 := by
  refine ⟨by decide, by decide⟩

/-- C7 counterexample: `"fixed bugs"` and `"resolved bugs"` do not extract to
the same criteria — the `keywords` field retains the differing raw tokens. -/
theorem C7_synonym_queries_differ_in_keywords :
    extractSearchCriteriaFast vocabB (s2l "fixed bugs") ≠
      extractSearchCriteriaFast vocabB (s2l "resolved bugs") := by
  decide

/-- C9 counterexample: the generative output `"null"` parses as JSON but is
not the expected criteria shape; the extractor returns it unvalidated instead
of the deterministic fallback result. -/
theorem C9_wrong_shape_json_returned_unvalidated :
    extractSearchCriteriaWithLlm vocabB (s2l "Query: bugs") (s2l "null") =
      LlmExtractOutcome.parsed JsonVal.jnull ∧
    fallbackCriteriaExtraction vocabB (s2l "Query: bugs") =
      some ⟨CVal.absent, CVal.absent, CVal.absent, CVal.single (s2l "bug"),
        []⟩ ∧
    LlmExtractOutcome.parsed JsonVal.jnull ≠
      LlmExtractOutcome.fell ⟨CVal.absent, CVal.absent, CVal.absent,
        CVal.single (s2l "bug"), []⟩ :=
  ⟨rfl, rfl, fun h => LlmExtractOutcome.noConfusion h⟩

/-- C2 amended: the classifier decision alone selects which path of
`process_query` runs — fast record filtering exactly when it reports that no
generative model is needed, the generative retrieval otherwise. -/
theorem C2_classifier_selects_path_amended (gcm : GcmFun) (v : Vocab)
    (corpus : List Doc) (simVec : List Char → Nat → List Doc) (q : List Char)
    (sf pf : Option (List Char)) :
    (shouldUseLlm v q = false →
      processQueryPath gcm v corpus simVec q sf pf =
        ProcessPath.fastP (fastSimpleQueryKept gcm v corpus q sf pf)) ∧
    (shouldUseLlm v q = true →
      processQueryPath gcm v corpus simVec q sf pf =
        ProcessPath.slowP (slowPathDocs corpus simVec q sf)) := by
  constructor <;> intro h <;> simp [processQueryPath, h]

/-- Witness for C2: the classifier reports no generative model for `"bug"`,
and `process_query` then runs the fast filtering path. -/
theorem C2_classifier_selects_path_witness :
    processQueryPath gcm0 vocabA [docBeta] simVec0 (s2l "bug") none none =
      ProcessPath.fastP (fastSimpleQueryKept gcm0 vocabA [docBeta] (s2l "bug")
        none none) :=
  (C2_classifier_selects_path_amended gcm0 vocabA [docBeta] simVec0 (s2l "bug")
    none none).1 (by decide)

/-- `dropTrailingWs` never lengthens a string. -/
theorem dropTrailingWs_length_le (l : List Char) :
    (dropTrailingWs l).length ≤ l.length := by
  induction l with
  | nil => simp [dropTrailingWs]
  | cons c rest ih =>
    simp only [dropTrailingWs]
    cases hr : dropTrailingWs rest with
    | nil =>
      by_cases hc : isPySpace c = true <;> simp [hc]
    | cons d t =>
      rw [hr] at ih
      simp only [List.length_cons] at ih ⊢
      omega

/-- Length of `List.dropWhile` never exceeds the input length . -/
theorem length_dropWhile_le' (p : Char → Bool) (l : List Char) :
    (l.dropWhile p).length ≤ l.length := by
  induction l with
  | nil => simp [List.dropWhile]
  | cons c rest ih =>
    by_cases hp : p c = true
    · simp [List.dropWhile, hp]; omega
    · simp [List.dropWhile, hp]

/-- `pyStrip` never lengthens a string. -/
theorem pyStrip_length_le (s : List Char) : (pyStrip s).length ≤ s.length :=
  le_trans (dropTrailingWs_length_le _) (length_dropWhile_le' _ _)

/-- `pyLower` preserves length. -/
theorem pyLower_length (s : List Char) : (pyLower s).length = s.length := by
  simp [pyLower]

/-- Token count of `splitWsAux` is bounded by the input length plus one. -/
theorem splitWsAux_length_le (l : List Char) :
    ∀ acc, (splitWsAux l acc).length ≤ l.length + 1 := by
  induction l with
  | nil =>
    intro acc
    by_cases h : acc = [] <;> simp [splitWsAux, h]
  | cons c rest ih =>
    intro acc
    by_cases hsp : isPySpace c = true
    · have hn := ih []
      by_cases h : acc = [] <;> simp only [splitWsAux, hsp, h] <;> simp <;>
        omega
    · have := ih (c :: acc)
      simp [splitWsAux, hsp]
      omega

/-- A string with `n` whitespace-separated tokens has at least `n - 1`
characters. -/
theorem splitWs_length_le (l : List Char) : (splitWs l).length ≤ l.length + 1 :=
  splitWsAux_length_le l []

/-- C4 amended: a query shorter than three characters always requires the
generative model; an 8-word query with no analytical keyword, at most two
matched taxonomy categories **and no natural-language request phrase** never
does (the last condition is what the original claim omitted). -/
theorem C4_classifier_boundary_amended :
    (∀ (v : Vocab) (q : List Char), q.length < 3 → shouldUseLlm v q = true) ∧
    (∀ (v : Vocab) (q : List Char),
      (splitWs (pyStrip (pyLower q))).length = 8 →
      hasComplexPatterns (pyStrip (pyLower q)) = false →
      criteriaCount v (pyStrip (pyLower q)) ≤ 2 →
      hasNaturalLanguage (pyStrip (pyLower q)) = false →
      shouldUseLlm v q = false) := by
  constructor
  · intro v q h
    have hlen : (pyStrip (pyLower q)).length < 3 := by
      have h1 := pyStrip_length_le (pyLower q)
      have h2 := pyLower_length q
      omega
    simp [shouldUseLlm, hlen]
  · intro v q h8 hc hcc hn
    have hlen : ¬(pyStrip (pyLower q)).length < 3 := by
      have := splitWs_length_le (pyStrip (pyLower q))
      omega
    simp [shouldUseLlm, hlen, hc, hn, h8]
    omega

/-- Witness for C4: `"hi"` (two characters) requires the generative model,
the plain 8-word query `"aa bb cc dd ee ff gg hh"` does not. -/
theorem C4_classifier_boundary_witness :
    shouldUseLlm vocabA (s2l "hi") = true ∧
    shouldUseLlm vocabA (s2l "aa bb cc dd ee ff gg hh") = false :=
  ⟨C4_classifier_boundary_amended.1 vocabA (s2l "hi") (by decide),
   C4_classifier_boundary_amended.2 vocabA (s2l "aa bb cc dd ee ff gg hh")
     (by decide) (by decide) (by decide) (by decide)⟩

/-- C9 amended: only an output that fails to parse as JSON (after stripping
code fences) makes the LLM-assisted extractor return the deterministic
fallback result on the same context query (provided the fallback itself does
not raise); parseable JSON of any shape is returned without validation. -/
theorem C9_json_parse_failure_falls_back_amended (v : Vocab)
    (ctxq resp : List Char) (c : Criteria)
    (hparse : jsonLoads (pyStrip (stripCodeFences resp)) = none)
    (hfb : fallbackCriteriaExtraction v ctxq = some c) :
    extractSearchCriteriaWithLlm v ctxq resp = LlmExtractOutcome.fell c := by
  simp [extractSearchCriteriaWithLlm, hparse, hfb]

/-- Witness for C9: a plain-prose response falls back to the deterministic
extraction of the context query. -/
theorem C9_json_parse_failure_witness :
    extractSearchCriteriaWithLlm vocabB (s2l "Query: fixed bugs")
        (s2l "no json here") =
      LlmExtractOutcome.fell ⟨CVal.absent, CVal.absent, CVal.single (s2l "done"),
        CVal.single (s2l "bug"), []⟩ :=
  C9_json_parse_failure_falls_back_amended vocabB (s2l "Query: fixed bugs")
    (s2l "no json here") _ (by rfl) (by rfl)

/-- The modelled parse boundary agrees with `json.loads` on its delicate
cases: the float constants `NaN` and `-Infinity` parse (to truthy values), a
leading-zero numeral and a string literal with a raw control character are
rejected, and an extreme negative exponent still parses. -/
theorem jsonLoads_boundary_cases :
    jsonLoads (s2l "NaN") = some (JsonVal.jnum (s2l "NaN")) ∧
    jsonLoads (s2l "-Infinity") = some (JsonVal.jnum (s2l "-Infinity")) ∧
    jsonTruthy (JsonVal.jnum (s2l "NaN")) = true ∧
    jsonLoads (s2l "01") = none ∧
    jsonLoads (s2l "\"a\nb\"") = none ∧
    jsonLoads (s2l "1e-999") = some (JsonVal.jnum (s2l "1e-999")) := by
  refine ⟨rfl, rfl, rfl, rfl, rfl, rfl⟩

/-- The targeted-search loop equals a filter of the corpus followed by
attaching relevance score 1.0. -/
theorem targetedSearch_eq_filter_map (corpus : List Doc) (sf pf : List Char)
    (c : Criteria) :
    targetedSearch corpus sf pf c =
      (corpus.filter (fun d => matchesSprintProject sf pf d.metadata &&
        targetedCriteriaOk c d.metadata)).map
        (fun d => SearchResult.mk d.content d.metadata 1) := by
  induction corpus with
  | nil => simp [targetedSearch]
  | cons d rest ih =>
    cases hm : matchesSprintProject sf pf d.metadata <;>
      cases hc : targetedCriteriaOk c d.metadata <;>
      simp [targetedSearch, hm, hc, ih]

/-- C5 amended: with both structural filters supplied (and truthy), retrieval
dispatches to the targeted strategy, which scans the corpus and keeps exactly
the records matching sprint and project case-insensitively **and** the
already-extracted criteria, each with relevance score 1.0; the result is
independent of the similarity-search function, so no vector call is made. -/
theorem C5_targeted_strategy_amended (corpus : List Doc)
    (sim sim' : List Char → Nat → List (Doc × Rat)) (ctxq : List Char)
    (c : Criteria) (sf pf : List Char) (hsf : sf ≠ []) (hpf : pf ≠ []) :
    performIntelligentSearch ⟨corpus, sim⟩ ctxq c (some sf) (some pf) =
      targetedSearch corpus sf pf c ∧
    performIntelligentSearch ⟨corpus, sim⟩ ctxq c (some sf) (some pf) =
      performIntelligentSearch ⟨corpus, sim'⟩ ctxq c (some sf) (some pf) ∧
    targetedSearch corpus sf pf c =
      (corpus.filter (fun d => matchesSprintProject sf pf d.metadata &&
        targetedCriteriaOk c d.metadata)).map
        (fun d => SearchResult.mk d.content d.metadata 1) := by
  refine ⟨?_, ?_, targetedSearch_eq_filter_map corpus sf pf c⟩ <;>
    simp [performIntelligentSearch, truthyOpt, hsf, hpf, optStr]

/-- Witness for C5, at a one-record store. -/
theorem C5_targeted_strategy_witness :
    performIntelligentSearch ⟨[docLow], storeA.simSearch⟩ (s2l "q")
        emptyCriteria (some (s2l "s1")) (some (s2l "p1")) =
      targetedSearch [docLow] (s2l "s1") (s2l "p1") emptyCriteria :=
  (C5_targeted_strategy_amended [docLow] storeA.simSearch storeA.simSearch
    (s2l "q") emptyCriteria (s2l "s1") (s2l "p1") (by decide) (by decide)).1

/-- Members of a `filterO` result come from the input and satisfied the
predicate. -/
theorem filterO_mem {α : Type} {f : α → Option Bool} :
    ∀ {l out : List α} {x : α}, filterO f l = some out → x ∈ out →
      x ∈ l ∧ f x = some true := by
  intro l
  induction l with
  | nil =>
    intro out x h hx
    simp [filterO] at h
    subst h
    cases hx
  | cons y ys ih =>
    intro out x h hx
    simp only [filterO] at h
    cases hf : f y with
    | none => rw [hf] at h; cases h
    | some b =>
      rw [hf] at h
      cases hr : filterO f ys with
      | none => rw [hr] at h; cases h
      | some r =>
        rw [hr] at h
        simp at h
        subst h
        cases b with
        | true =>
          simp at hx
          cases hx with
          | inl hxy => subst hxy; exact ⟨List.mem_cons_self _ _, hf⟩
          | inr hxr =>
            have := ih hr hxr
            exact ⟨List.mem_cons_of_mem _ this.1, this.2⟩
        | false =>
          have := ih hr hx
          exact ⟨List.mem_cons_of_mem _ this.1, this.2⟩

/-- A truthy filter denotes a non-empty lowered string. -/
theorem truthy_pyLower_ne_nil {sf : Option (List Char)}
    (h : truthyOpt sf = true) : pyLower (optStr sf) ≠ [] := by
  cases sf with
  | none => simp [truthyOpt] at h
  | some s =>
    simp [truthyOpt] at h
    simp [optStr, pyLower, h]

/-- A record without sprint metadata fails the sprint check of the fast
path. -/
theorem fastKeepDoc_missing_sprint (c : Criteria) (sf pf : Option (List Char))
    (md : Metadata) (hsf : truthyOpt sf = true) (hmd : md.sprint_id = none) :
    fastKeepDoc c sf pf md = some false := by
  have hne : pyLower (mdGet md.sprint_id) ≠ pyLower (optStr sf) := by
    rw [hmd]
    intro h
    exact truthy_pyLower_ne_nil hsf h.symm
  simp [fastKeepDoc, hsf, hne]

/-- A record without project metadata fails the project check of the fast
path. -/
theorem fastKeepDoc_missing_project (c : Criteria) (sf pf : Option (List Char))
    (md : Metadata) (hpf : truthyOpt pf = true) (hmd : md.project_id = none) :
    fastKeepDoc c sf pf md = some false := by
  have hne : pyLower (mdGet md.project_id) ≠ pyLower (optStr pf) := by
    rw [hmd]
    intro h
    exact truthy_pyLower_ne_nil hpf h.symm
  by_cases hs : truthyOpt sf = true ∧
      pyLower (mdGet md.sprint_id) ≠ pyLower (optStr sf)
  · simp [fastKeepDoc, hs]
  · simp [fastKeepDoc, hs, hpf, hne]

/-- A record without sprint metadata fails the sprint check of the structured
extraction. -/
theorem structuredKeepDoc_missing_sprint (jc : JsonVal)
    (sf pf : Option (List Char)) (md : Metadata) (hsf : truthyOpt sf = true)
    (hmd : md.sprint_id = none) : structuredKeepDoc jc sf pf md = some false := by
  have hne : pyLower (mdGet md.sprint_id) ≠ pyLower (optStr sf) := by
    rw [hmd]
    intro h
    exact truthy_pyLower_ne_nil hsf h.symm
  simp [structuredKeepDoc, hsf, hne]

/-- A record without project metadata fails the project check of the
structured extraction. -/
theorem structuredKeepDoc_missing_project (jc : JsonVal)
    (sf pf : Option (List Char)) (md : Metadata) (hpf : truthyOpt pf = true)
    (hmd : md.project_id = none) : structuredKeepDoc jc sf pf md = some false := by
  have hne : pyLower (mdGet md.project_id) ≠ pyLower (optStr pf) := by
    rw [hmd]
    intro h
    exact truthy_pyLower_ne_nil hpf h.symm
  by_cases hs : truthyOpt sf = true ∧
      pyLower (mdGet md.sprint_id) ≠ pyLower (optStr sf)
  · simp [structuredKeepDoc, hs]
  · simp [structuredKeepDoc, hs, hpf, hne]

/-- Members of a targeted-search result satisfy the sprint/project match. -/
theorem targeted_member_matches {corpus : List Doc} {sf pf : List Char}
    {c : Criteria} {r : SearchResult}
    (hr : r ∈ targetedSearch corpus sf pf c) :
    pyLower (mdGet r.metadata.sprint_id) = pyLower sf ∧
    pyLower (mdGet r.metadata.project_id) = pyLower pf := by
  rw [targetedSearch_eq_filter_map] at hr
  rcases List.mem_map.mp hr with ⟨d, hd, rfl⟩
  have hp := List.of_mem_filter hd
  simp only [Bool.and_eq_true, matchesSprintProject, decide_eq_true_eq] at hp
  exact hp.1

/-- An element on which the predicate returned `false` is not kept by
`filterO`. -/
theorem not_mem_of_filterO_false {α : Type} {f : α → Option Bool}
    {l out : List α} {x : α} (h : filterO f l = some out)
    (hx : f x = some false) : x ∉ out := by
  intro hmem
  have := (filterO_mem h hmem).2
  rw [hx] at this
  cases this

/-- A non-empty string stays non-empty under lowering. -/
theorem pyLower_ne_nil {s : List Char} (h : s ≠ []) : pyLower s ≠ [] := by
  simp [pyLower, h]

/-- C10: records whose metadata lacks the sprint (respectively project)
identifier are excluded from the targeted, fast-path and
structured-extraction result sets whenever the corresponding filter is
non-empty: the absent field reads as the empty string, which never equals a
non-empty filter case-insensitively. -/
theorem C10_missing_metadata_excluded :
    (∀ (corpus : List Doc) (sf pf : List Char) (c : Criteria)
        (r : SearchResult), sf ≠ [] → r ∈ targetedSearch corpus sf pf c →
      r.metadata.sprint_id ≠ none) ∧
    (∀ (corpus : List Doc) (sf pf : List Char) (c : Criteria)
        (r : SearchResult), pf ≠ [] → r ∈ targetedSearch corpus sf pf c →
      r.metadata.project_id ≠ none) ∧
    (∀ (gcm : GcmFun) (v : Vocab) (corpus : List Doc) (q : List Char)
        (sf pf : Option (List Char)) (kept : List Doc) (d : Doc),
      truthyOpt sf = true → d.metadata.sprint_id = none →
      fastSimpleQueryKept gcm v corpus q sf pf = some kept → d ∉ kept) ∧
    (∀ (gcm : GcmFun) (v : Vocab) (corpus : List Doc) (q : List Char)
        (sf pf : Option (List Char)) (kept : List Doc) (d : Doc),
      truthyOpt pf = true → d.metadata.project_id = none →
      fastSimpleQueryKept gcm v corpus q sf pf = some kept → d ∉ kept) ∧
    (∀ (v : Vocab) (resp : List Char) (corpus : List Doc) (q : List Char)
        (sf pf : Option (List Char)) (kept : List Doc) (d : Doc),
      truthyOpt sf = true → d.metadata.sprint_id = none →
      extractStructuredTasksKept v resp corpus q sf pf = some kept →
      d ∉ kept) ∧
    (∀ (v : Vocab) (resp : List Char) (corpus : List Doc) (q : List Char)
        (sf pf : Option (List Char)) (kept : List Doc) (d : Doc),
      truthyOpt pf = true → d.metadata.project_id = none →
      extractStructuredTasksKept v resp corpus q sf pf = some kept →
      d ∉ kept) := by
  refine ⟨?_, ?_, ?_, ?_, ?_, ?_⟩
  · intro corpus sf pf c r hsf hr hnone
    have hm := (targeted_member_matches hr).1
    rw [hnone] at hm
    exact pyLower_ne_nil hsf (by simpa [mdGet, pyLower] using hm.symm)
  · intro corpus sf pf c r hpf hr hnone
    have hm := (targeted_member_matches hr).2
    rw [hnone] at hm
    exact pyLower_ne_nil hpf (by simpa [mdGet, pyLower] using hm.symm)
  · intro gcm v corpus q sf pf kept d hsf hnone hkept
    simp only [fastSimpleQueryKept] at hkept
    cases hc : extractSearchCriteriaFast v (sanitizeQuery gcm v q) with
    | none => rw [hc] at hkept; cases hkept
    | some c =>
      rw [hc] at hkept
      simp only [Option.some_bind] at hkept
      exact not_mem_of_filterO_false hkept
        (fastKeepDoc_missing_sprint c sf pf d.metadata hsf hnone)
  · intro gcm v corpus q sf pf kept d hpf hnone hkept
    simp only [fastSimpleQueryKept] at hkept
    cases hc : extractSearchCriteriaFast v (sanitizeQuery gcm v q) with
    | none => rw [hc] at hkept; cases hkept
    | some c =>
      rw [hc] at hkept
      simp only [Option.some_bind] at hkept
      exact not_mem_of_filterO_false hkept
        (fastKeepDoc_missing_project c sf pf d.metadata hpf hnone)
  · intro v resp corpus q sf pf kept d hsf hnone hkept
    simp only [extractStructuredTasksKept] at hkept
    cases hres : extractSearchCriteriaWithLlm v
        (buildContextAwareQuery q sf pf) resp with
    | parsed j =>
      rw [hres] at hkept
      exact not_mem_of_filterO_false hkept
        (structuredKeepDoc_missing_sprint j sf pf d.metadata hsf hnone)
    | fell c =>
      rw [hres] at hkept
      exact not_mem_of_filterO_false hkept
        (structuredKeepDoc_missing_sprint (criteriaToJson c) sf pf d.metadata
          hsf hnone)
    | raised => rw [hres] at hkept; cases hkept
  · intro v resp corpus q sf pf kept d hpf hnone hkept
    simp only [extractStructuredTasksKept] at hkept
    cases hres : extractSearchCriteriaWithLlm v
        (buildContextAwareQuery q sf pf) resp with
    | parsed j =>
      rw [hres] at hkept
      exact not_mem_of_filterO_false hkept
        (structuredKeepDoc_missing_project j sf pf d.metadata hpf hnone)
    | fell c =>
      rw [hres] at hkept
      exact not_mem_of_filterO_false hkept
        (structuredKeepDoc_missing_project (criteriaToJson c) sf pf d.metadata
          hpf hnone)
    | raised => rw [hres] at hkept; cases hkept

/-- Witness for C10: the record lacking a sprint identifier is absent from a
concrete fast-path result. -/
theorem C10_missing_metadata_witness :
    docNoSprint ∉ [docBug] :=
  C10_missing_metadata_excluded.2.2.1 gcm0 vocabB [docBug, docNoSprint]
    (s2l "bug") (some (s2l "s1")) (some (s2l "p1")) [docBug] docNoSprint
    (by decide) (by rfl) (by decide)

/-- C6 amended: the parser splits on `" and "` when present (else `" or "`),
extracts criteria from each stripped segment, drops segments yielding no
criteria, and only when at least two groups survive returns them sharing the
single operator; otherwise — including every text without a connective — it
returns the flat fast-extraction result as the single (implicit) group. -/
theorem C6_connective_split_amended (v : Vocab) (q : List Char)
    (r : ParsedQuery) (hr : parseComplexQueryLogic v q = some r) :
    (r.logic_ops = [] → r.groups = [] ∧
      extractSearchCriteriaFast v q = some r.base) ∧
    (r.logic_ops = [LogicOp.AND] →
      2 ≤ r.groups.length ∧
      strIn (s2l " and ") (pyStrip (pyLower q)) = true ∧
      r.groups = (splitOnStr (s2l " and ") (pyStrip (pyLower q))).filterMap
        (fun part => extractSingleCriteria v (pyStrip part))) ∧
    (r.logic_ops = [LogicOp.OR] →
      2 ≤ r.groups.length ∧
      strIn (s2l " or ") (pyStrip (pyLower q)) = true ∧
      strIn (s2l " and ") (pyStrip (pyLower q)) = false ∧
      r.groups = (splitOnStr (s2l " or ") (pyStrip (pyLower q))).filterMap
        (fun part => extractSingleCriteria v (pyStrip part))) := by
  unfold parseComplexQueryLogic at hr
  by_cases hand : strIn (s2l " and ") (pyStrip (pyLower q)) = true
  · simp only [hand, if_true] at hr
    by_cases hlen : 1 <
        ((splitOnStr (s2l " and ") (pyStrip (pyLower q))).filterMap
          (fun part => extractSingleCriteria v (pyStrip part))).length
    · rw [if_pos hlen] at hr
      injection hr with hr
      subst hr
      refine ⟨?_, ?_, ?_⟩
      · intro h
        cases h
      · intro _
        refine ⟨?_, hand, rfl⟩
        simp only
        omega
      · intro h
        simp at h
    · rw [if_neg hlen] at hr
      rcases Option.map_eq_some'.mp hr with ⟨c, hcf, rfl⟩
      refine ⟨fun _ => ⟨rfl, hcf⟩, fun h => ?_, fun h => ?_⟩ <;>
        simp [flatParsed] at h
  · simp only [hand, if_false] at hr
    by_cases hor : strIn (s2l " or ") (pyStrip (pyLower q)) = true
    · simp only [hor, if_true] at hr
      by_cases hlen : 1 <
          ((splitOnStr (s2l " or ") (pyStrip (pyLower q))).filterMap
            (fun part => extractSingleCriteria v (pyStrip part))).length
      · rw [if_pos hlen] at hr
        injection hr with hr
        subst hr
        refine ⟨?_, ?_, ?_⟩
        · intro h
          cases h
        · intro h
          simp at h
        · intro _
          refine ⟨?_, hor, by simpa using hand, rfl⟩
          simp only
          omega
      · rw [if_neg hlen] at hr
        rcases Option.map_eq_some'.mp hr with ⟨c, hcf, rfl⟩
        refine ⟨fun _ => ⟨rfl, hcf⟩, fun h => ?_, fun h => ?_⟩ <;>
          simp [flatParsed] at h
    · simp only [hor, if_false] at hr
      have hone : ¬1 < (match extractSingleCriteria v (pyStrip (pyLower q)) with
          | some c => [c]
          | none => ([] : List Criteria)).length := by
        cases hsc : extractSingleCriteria v (pyStrip (pyLower q)) <;>
          simp [hsc]
      rw [if_neg hone] at hr
      rcases Option.map_eq_some'.mp hr with ⟨c, hcf, rfl⟩
      refine ⟨fun _ => ⟨rfl, hcf⟩, fun h => ?_, fun h => ?_⟩ <;>
        simp [flatParsed] at h

/-- Witness for C6: `"done and bug"` yields two groups under the `AND`
operator, one per surviving segment. -/
theorem C6_connective_split_witness :
    2 ≤ ([⟨CVal.absent, CVal.absent, CVal.single (s2l "done"), CVal.absent, []⟩,
          ⟨CVal.absent, CVal.absent, CVal.absent, CVal.single (s2l "bug"), []⟩] :
        List Criteria).length ∧
    strIn (s2l " and ") (pyStrip (pyLower (s2l "done and bug"))) = true ∧
    ([⟨CVal.absent, CVal.absent, CVal.single (s2l "done"), CVal.absent, []⟩,
      ⟨CVal.absent, CVal.absent, CVal.absent, CVal.single (s2l "bug"), []⟩] :
        List Criteria) =
      (splitOnStr (s2l " and ")
        (pyStrip (pyLower (s2l "done and bug")))).filterMap
        (fun part => extractSingleCriteria vocabB (pyStrip part)) :=
  (C6_connective_split_amended vocabB (s2l "done and bug")
    ⟨emptyCriteria, [LogicOp.AND],
      [⟨CVal.absent, CVal.absent, CVal.single (s2l "done"), CVal.absent, []⟩,
       ⟨CVal.absent, CVal.absent, CVal.absent, CVal.single (s2l "bug"), []⟩]⟩
    (by decide)).2.1 rfl

/-- Characters of a collapsed string are spaces or come from the input. -/
theorem mem_collapseWsGo {c : Char} :
    ∀ (l : List Char) (b : Bool), c ∈ collapseWsGo b l → c = ' ' ∨ c ∈ l := by
  intro l
  induction l with
  | nil => intro b h; simp [collapseWsGo] at h
  | cons d rest ih =>
    intro b h
    by_cases hd : isPySpace d = true
    · cases b with
      | true =>
        simp only [collapseWsGo, hd, if_true] at h
        rcases ih true h with h1 | h1
        · exact Or.inl h1
        · exact Or.inr (List.mem_cons_of_mem _ h1)
      | false =>
        simp only [collapseWsGo, hd, if_true] at h
        rcases List.mem_cons.mp h with h1 | h1
        · exact Or.inl h1
        · rcases ih true h1 with h2 | h2
          · exact Or.inl h2
          · exact Or.inr (List.mem_cons_of_mem _ h2)
    · simp [collapseWsGo, hd] at h
      rcases h with h1 | h1
      · exact Or.inr (h1 ▸ List.mem_cons_self _ _)
      · rcases ih false h1 with h2 | h2
        · exact Or.inl h2
        · exact Or.inr (List.mem_cons_of_mem _ h2)

/-- Characters survive `dropTrailingWs` only from the input. -/
theorem mem_dropTrailingWs {c : Char} :
    ∀ (l : List Char), c ∈ dropTrailingWs l → c ∈ l := by
  intro l
  induction l with
  | nil => intro h; simp [dropTrailingWs] at h
  | cons d rest ih =>
    intro h
    simp only [dropTrailingWs] at h
    cases hr : dropTrailingWs rest with
    | nil =>
      rw [hr] at h
      by_cases hd : isPySpace d = true
      · simp [hd] at h
      · simp [hd] at h
        exact h ▸ List.mem_cons_self _ _
    | cons e t =>
      rw [hr] at h
      rcases List.mem_cons.mp h with h1 | h1
      · exact h1 ▸ List.mem_cons_self _ _
      · exact List.mem_cons_of_mem _ (ih (hr ▸ h1))

/-- Characters survive `pyStrip` only from the input. -/
theorem mem_pyStrip {c : Char} {l : List Char} (h : c ∈ pyStrip l) : c ∈ l := by
  have h1 := mem_dropTrailingWs _ h
  exact (List.dropWhile_sublist _).mem h1

/-- The collapsed continuation after a space never starts with whitespace. -/
theorem headNotSpaceB_collapseWsGo_true :
    ∀ l : List Char, headNotSpaceB (collapseWsGo true l) = true := by
  intro l
  induction l with
  | nil => simp [collapseWsGo, headNotSpaceB]
  | cons d rest ih =>
    by_cases hd : isPySpace d = true
    · simpa [collapseWsGo, hd] using ih
    · simp [collapseWsGo, hd, headNotSpaceB]

/-- Output of the whitespace collapse satisfies `collapsedOk`. -/
theorem collapsedOk_collapseWsGo :
    ∀ (l : List Char) (b : Bool), collapsedOk (collapseWsGo b l) = true := by
  intro l
  induction l with
  | nil => intro b; simp [collapseWsGo, collapsedOk]
  | cons d rest ih =>
    intro b
    by_cases hd : isPySpace d = true
    · cases b with
      | true => simpa [collapseWsGo, hd] using ih true
      | false =>
        simp only [collapseWsGo, hd, if_true]
        simp [collapsedOk, headNotSpaceB_collapseWsGo_true, ih true]
    · simp only [collapseWsGo, hd]
      simp [collapsedOk, hd, ih false]

/-- `collapsedOk` is closed under taking the tail. -/
theorem collapsedOk_tail {c : Char} {l : List Char}
    (h : collapsedOk (c :: l) = true) : collapsedOk l = true := by
  simp only [collapsedOk, Bool.and_eq_true] at h
  exact h.2

/-- `collapsedOk` is preserved by dropping a prefix. -/
theorem collapsedOk_dropWhile (p : Char → Bool) :
    ∀ l : List Char, collapsedOk l = true →
      collapsedOk (l.dropWhile p) = true := by
  intro l
  induction l with
  | nil => intro h; simpa using h
  | cons c rest ih =>
    intro h
    by_cases hc : p c = true
    · simp only [List.dropWhile, hc]
      exact ih (collapsedOk_tail h)
    · simpa [List.dropWhile, hc] using h

/-- `dropTrailingWs` preserves the head of the string when the result is
non-empty. -/
theorem dropTrailingWs_head :
    ∀ (l : List Char) (d : Char) (t : List Char),
      dropTrailingWs l = d :: t → ∃ t0, l = d :: t0 := by
  intro l d t h
  cases l with
  | nil => simp [dropTrailingWs] at h
  | cons c rest =>
    simp only [dropTrailingWs] at h
    cases hr : dropTrailingWs rest with
    | nil =>
      rw [hr] at h
      by_cases hc : isPySpace c = true
      · simp [hc] at h
      · simp [hc] at h
        exact ⟨rest, by rw [h.1]⟩
    | cons e t2 =>
      rw [hr] at h
      exact ⟨rest, by rw [(List.cons.injEq _ _ _ _).mp h |>.1]⟩

/-- `headNotSpaceB` is preserved by `dropTrailingWs`. -/
theorem headNotSpaceB_dropTrailingWs {l : List Char}
    (h : headNotSpaceB l = true) : headNotSpaceB (dropTrailingWs l) = true := by
  cases hr : dropTrailingWs l with
  | nil => simp [headNotSpaceB]
  | cons d t =>
    rcases dropTrailingWs_head l d t hr with ⟨t0, ht⟩
    subst ht
    simpa [headNotSpaceB] using h

/-- Introduction form for `collapsedOk` on a cons cell whose tail stays
abstract. -/
theorem collapsedOk_cons {c : Char} {l : List Char}
    (h1 : (if isPySpace c = true then
      (decide (c = ' ') && headNotSpaceB l) else true) = true)
    (h2 : collapsedOk l = true) : collapsedOk (c :: l) = true := by
  simp only [collapsedOk, Bool.and_eq_true]
  exact ⟨h1, h2⟩

/-- Decomposition form for `collapsedOk` on a cons cell. -/
theorem collapsedOk_cons_elim {c : Char} {l : List Char}
    (h : collapsedOk (c :: l) = true) :
    (if isPySpace c = true then
      (decide (c = ' ') && headNotSpaceB l) else true) = true ∧
    collapsedOk l = true := by
  simp only [collapsedOk, Bool.and_eq_true] at h
  exact h

/-- `collapsedOk` is preserved by `dropTrailingWs`. -/
theorem collapsedOk_dropTrailingWs :
    ∀ l : List Char, collapsedOk l = true →
      collapsedOk (dropTrailingWs l) = true := by
  intro l
  induction l with
  | nil => intro h; simpa [dropTrailingWs] using h
  | cons c rest ih =>
    intro h
    have hcomp := collapsedOk_cons_elim h
    simp only [dropTrailingWs]
    cases hr : dropTrailingWs rest with
    | nil =>
      by_cases hc : isPySpace c = true
      · simp [hc, collapsedOk]
      · simp only [hc, if_false]
        exact collapsedOk_cons (by simp [hc]) (by simp [collapsedOk])
    | cons d t =>
      rcases dropTrailingWs_head rest d t hr with ⟨t0, ht⟩
      have hok : collapsedOk (d :: t) = true := hr ▸ ih hcomp.2
      by_cases hc : isPySpace c = true
      · have hsp := hcomp.1
        rw [if_pos hc] at hsp
        simp only [Bool.and_eq_true] at hsp
        have hd : headNotSpaceB (d :: t) = true := by
          have h2 : headNotSpaceB rest = true := hsp.2
          rw [ht] at h2
          simpa [headNotSpaceB] using h2
        exact collapsedOk_cons (by rw [if_pos hc]; simp [hsp.1, hd]) hok
      · exact collapsedOk_cons (by simp [hc]) hok

/-- After a space, collapsing a string with a non-space head behaves like the
fresh scanner. -/
theorem collapseWsGo_true_eq_false {l : List Char}
    (h : headNotSpaceB l = true) : collapseWsGo true l = collapseWsGo false l := by
  cases l with
  | nil => rfl
  | cons c rest =>
    have hc : isPySpace c = false := by
      simpa [headNotSpaceB] using h
    simp [collapseWsGo, hc]

/-- Strings satisfying `collapsedOk` are fixed points of the whitespace
collapse. -/
theorem collapse_fix : ∀ l : List Char, collapsedOk l = true →
    collapseWsGo false l = l := by
  intro l
  induction l with
  | nil => intro h; rfl
  | cons c rest ih =>
    intro h
    simp only [collapsedOk, Bool.and_eq_true] at h
    by_cases hc : isPySpace c = true
    · have hsp := h.1
      rw [if_pos hc] at hsp
      simp only [Bool.and_eq_true, decide_eq_true_eq] at hsp
      simp only [collapseWsGo, hc, if_true]
      rw [collapseWsGo_true_eq_false hsp.2, ih h.2, hsp.1]
      simp
    · simp only [collapseWsGo, hc]
      simp [ih h.2]

/-- Dropping leading whitespace leaves a non-whitespace head (or nothing). -/
theorem headNotSpaceB_dropWhile :
    ∀ l : List Char, headNotSpaceB (l.dropWhile isPySpace) = true := by
  intro l
  induction l with
  | nil => simp [headNotSpaceB]
  | cons c rest ih =>
    by_cases hc : isPySpace c = true
    · simpa [List.dropWhile, hc] using ih
    · simp [List.dropWhile, hc, headNotSpaceB]

/-- `dropWhile` is the identity on strings with a non-whitespace head. -/
theorem dropWhile_eq_self_of_headNotSpace {l : List Char}
    (h : headNotSpaceB l = true) : l.dropWhile isPySpace = l := by
  cases l with
  | nil => rfl
  | cons c rest =>
    have hc : isPySpace c = false := by simpa [headNotSpaceB] using h
    simp [List.dropWhile, hc]

/-- `dropTrailingWs` is idempotent. -/
theorem dropTrailingWs_idem :
    ∀ l : List Char, dropTrailingWs (dropTrailingWs l) = dropTrailingWs l := by
  intro l
  induction l with
  | nil => rfl
  | cons c rest ih =>
    cases hr : dropTrailingWs rest with
    | nil =>
      by_cases hc : isPySpace c = true
      · rw [show dropTrailingWs (c :: rest) = [] from by
          rw [dropTrailingWs, hr]; simp [hc]]
        rfl
      · rw [show dropTrailingWs (c :: rest) = [c] from by
          rw [dropTrailingWs, hr]; simp [hc]]
        rw [dropTrailingWs]
        simp [dropTrailingWs, hc]
    | cons d t =>
      rw [hr] at ih
      rw [show dropTrailingWs (c :: rest) = c :: d :: t from by
        rw [dropTrailingWs, hr]]
      rw [dropTrailingWs, ih]

/-- `pyStrip` is idempotent. -/
theorem pyStrip_idem (l : List Char) : pyStrip (pyStrip l) = pyStrip l := by
  unfold pyStrip
  rw [dropWhile_eq_self_of_headNotSpace
    (headNotSpaceB_dropTrailingWs (headNotSpaceB_dropWhile l))]
  exact dropTrailingWs_idem _

/-- Every character of the final sanitization output is in the allowed
character set. -/
theorem allowed_mem_finalSanitizePass {c : Char} {x : List Char}
    (h : c ∈ finalSanitizePass x) : allowedSanChar c = true := by
  have h1 := mem_pyStrip h
  rcases mem_collapseWsGo _ _ h1 with h2 | h2
  · subst h2; decide
  · exact (List.mem_filter.mp h2).2

/-- C3 amended: the full normalization pipeline is not idempotent (see the
counterexample above), but its final sanitization pass — character-set
restriction, whitespace collapse and strip — is: applying that pass twice
equals applying it once, for every input. -/
theorem C3_final_sanitize_pass_idempotent (x : List Char) :
    finalSanitizePass (finalSanitizePass x) = finalSanitizePass x := by
  have hfilter : charFilterSan (finalSanitizePass x) = finalSanitizePass x :=
    List.filter_eq_self.mpr (fun c hc => allowed_mem_finalSanitizePass hc)
  have hok : collapsedOk (finalSanitizePass x) = true := by
    unfold finalSanitizePass pyStrip
    exact collapsedOk_dropTrailingWs _
      (collapsedOk_dropWhile _ _ (collapsedOk_collapseWsGo _ false))
  have hcoll : collapseWs (finalSanitizePass x) = finalSanitizePass x :=
    collapse_fix _ hok
  show pyStrip (collapseWs (charFilterSan (finalSanitizePass x))) =
    finalSanitizePass x
  rw [hfilter, hcoll]
  exact pyStrip_idem _

/-- The status loop leaves the priority field unchanged. -/
theorem statusLoopStep_priority (v : Vocab) (q : List Char) (c : Criteria) :
    (statusLoopStep v q c).priority = c.priority := by
  rcases hf : v.status.find? (fun st =>
      strIn st q || strIn (replaceStr (s2l " ") [] st) q) with _ | st <;>
    simp [statusLoopStep, hf]

/-- The done-synonym override leaves the priority field unchanged. -/
theorem doneSynonymStep_priority (v : Vocab) (q : List Char) (c : Criteria) :
    (doneSynonymStep v q c).priority = c.priority := by
  unfold doneSynonymStep
  split
  · rcases hf : v.status.find? statusHasDoneSyn with _ | st <;> simp [hf]
  · rfl

/-- The issue-type loop leaves the priority field unchanged. -/
theorem issueLoopStep_priority (v : Vocab) (q : List Char) (c : Criteria) :
    (issueLoopStep v q c).priority = c.priority := by
  rcases hf : v.issue_type.find? (fun it =>
      strIn it q || strIn (replaceStr (s2l " ") [] it) q) with _ | it <;>
    simp [issueLoopStep, hf]

/-- The plural handling leaves the priority field unchanged. -/
theorem pluralsStep_priority (v : Vocab) (q : List Char) (c : Criteria) :
    (pluralsStep v q c).priority = c.priority := by
  unfold pluralsStep
  split <;> try rfl
  split <;> rfl

/-- The assignee loop leaves the priority field unchanged. -/
theorem assigneeLoopStep_priority (v : Vocab) (q : List Char) (c : Criteria) :
    (assigneeLoopStep v q c).priority = c.priority := by
  rcases hf : v.assignees.find? (fun a => strIn a q) with _ | a <;>
    simp [assigneeLoopStep, hf]

/-- The fixed-bugs special handling leaves the priority field unchanged. -/
theorem fixedBugsSpecialStep_priority (v : Vocab) (q : List Char)
    (c : Criteria) : (fixedBugsSpecialStep v q c).priority = c.priority := by
  unfold fixedBugsSpecialStep
  split <;> try rfl
  split <;> try rfl
  split
  · rcases hf : v.status.find? statusHasDoneSyn with _ | st <;> simp [hf]
  · rfl

/-- Attaching keywords leaves the priority field unchanged. -/
theorem keywordsStep_priority (v : Vocab) (q : List Char) (c : Criteria) :
    (keywordsStep v q c).priority = c.priority := by
  simp [keywordsStep]

/-- Core computation of the fast extractor under a pattern-free query: the
assignee-pattern step succeeds and the pipeline is the plain step
composition. -/
theorem fastExtract_eq_of_no_pattern (v : Vocab) (q : List Char)
    (hctx : strIn (s2l " | query: ") q = false)
    (hlow : pyLower q = q)
    (hasg : assigneePatternsList.find? (fun pat => strIn pat q) = none) :
    extractSearchCriteriaFast v q = some (keywordsStep v q
      (fixedBugsSpecialStep v q (assigneeLoopStep v q (pluralsStep v q
        (issueLoopStep v q (doneSynonymStep v q (statusLoopStep v q
          (priorityPhraseStep fastPriorityPhrases v q
            (priorityLoopStep v q emptyCriteria))))))))) := by
  have hq : contextQueryPart q = q := by simp [contextQueryPart, hctx, hlow]
  unfold extractSearchCriteriaFast extractSearchCriteriaFastCore
  rw [hq]
  simp [assigneePatternsStep, hasg]

/-- C8: for every vocabulary, the deterministic fast extractor maps both
`"all priority tasks"` and `"priority tasks"` to criteria whose priority
field is the full list of known priority values, not a single scalar. -/
theorem C8_priority_tasks_full_list (v : Vocab) :
    ∃ c1 c2,
      extractSearchCriteriaFast v (s2l "all priority tasks") = some c1 ∧
      c1.priority = CVal.multi v.priority ∧
      extractSearchCriteriaFast v (s2l "priority tasks") = some c2 ∧
      c2.priority = CVal.multi v.priority := by
  refine ⟨_, _, fastExtract_eq_of_no_pattern v (s2l "all priority tasks")
      (by decide) (by decide) (by decide), ?_,
    fastExtract_eq_of_no_pattern v (s2l "priority tasks")
      (by decide) (by decide) (by decide), ?_⟩ <;>
  · rw [keywordsStep_priority, fixedBugsSpecialStep_priority,
      assigneeLoopStep_priority, pluralsStep_priority, issueLoopStep_priority,
      doneSynonymStep_priority, statusLoopStep_priority]
    rw [priorityPhraseStep, if_pos (by decide)]

/-- Fast extraction of a done-synonym bug query: under the listed conditions
on the query text and the vocabulary, the extractor yields no assignee, no
priority, the first done-equivalent status, the issue type `bug`, and some
keyword list. -/
theorem fastExtract_doneBug_fields (v : Vocab) (q s0 : List Char)
    (hctx : strIn (s2l " | query: ") q = false)
    (hlow : pyLower q = q)
    (hph : fastPriorityPhrases.any (fun ph => strIn ph q) = false)
    (hds : doneSynonymsList.any (fun syn => strIn syn q) = true)
    (hbugs : strIn (s2l "bugs") q = true)
    (hfb : fixedBugsPhrases.any (fun ph => strIn ph q) = true)
    (hasg : assigneePatternsList.find? (fun pat => strIn pat q) = none)
    (hpri : ∀ p ∈ v.priority,
      (strIn p q || strIn (replaceStr (s2l " ") [] p) q) = false)
    (hass : ∀ a ∈ v.assignees, strIn a q = false)
    (hd : v.status.find? statusHasDoneSyn = some s0)
    (hbug : v.issue_type.contains (s2l "bug") = true) :
    ∃ kw, extractSearchCriteriaFast v q =
      some ⟨CVal.absent, CVal.absent, CVal.single s0, CVal.single (s2l "bug"),
        kw⟩ := by
  have hs0 : s0 ≠ [] := by
    intro h
    have hsyn := List.find?_some hd
    rw [h] at hsyn
    exact absurd hsyn (by decide)
  have h1 : priorityLoopStep v q emptyCriteria = emptyCriteria := by
    unfold priorityLoopStep
    rw [List.find?_eq_none.mpr (fun p hp => by simp [hpri p hp])]
  have h2 : priorityPhraseStep fastPriorityPhrases v q emptyCriteria =
      emptyCriteria := by
    rw [priorityPhraseStep, if_neg]
    simp [hph]
  have h34 : doneSynonymStep v q (statusLoopStep v q emptyCriteria) =
      ⟨CVal.absent, CVal.absent, CVal.single s0, CVal.absent, []⟩ := by
    rcases hf : v.status.find? (fun st =>
        strIn st q || strIn (replaceStr (s2l " ") [] st) q) with _ | st <;>
      simp [statusLoopStep, hf, doneSynonymStep, hds, hd, emptyCriteria]
  have h56 : pluralsStep v q (issueLoopStep v q
      (⟨CVal.absent, CVal.absent, CVal.single s0, CVal.absent, []⟩ : Criteria)) =
      ⟨CVal.absent, CVal.absent, CVal.single s0, CVal.single (s2l "bug"),
        []⟩ := by
    have hbug2 : s2l "bug" ∈ v.issue_type := by
      simpa using hbug
    rcases hi : v.issue_type.find? (fun it =>
        strIn it q || strIn (replaceStr (s2l " ") [] it) q) with _ | it <;>
      simp [issueLoopStep, hi, pluralsStep, hbugs, hbug2]
  have h7 : assigneeLoopStep v q
      (⟨CVal.absent, CVal.absent, CVal.single s0, CVal.single (s2l "bug"),
        []⟩ : Criteria) =
      ⟨CVal.absent, CVal.absent, CVal.single s0, CVal.single (s2l "bug"),
        []⟩ := by
    unfold assigneeLoopStep
    rw [List.find?_eq_none.mpr (fun a ha => by simp [hass a ha])]
  have h9 : fixedBugsSpecialStep v q
      (⟨CVal.absent, CVal.absent, CVal.single s0, CVal.single (s2l "bug"),
        []⟩ : Criteria) =
      ⟨CVal.absent, CVal.absent, CVal.single s0, CVal.single (s2l "bug"),
        []⟩ := by
    simp [fixedBugsSpecialStep, hfb, cvalTruthy, hs0]
  have hq : contextQueryPart q = q := by simp [contextQueryPart, hctx, hlow]
  refine ⟨keywordsOf (knownWordsOf v) q
    (⟨CVal.absent, CVal.absent, CVal.single s0, CVal.single (s2l "bug"),
      []⟩ : Criteria), ?_⟩
  simp only [extractSearchCriteriaFast, extractSearchCriteriaFastCore, hq, h1,
    h2, h34, h56, h7]
  simp only [assigneePatternsStep, hasg, Option.map_some']
  rw [h9]
  simp [keywordsStep]

/-- C7 amended: for every vocabulary that has a done-equivalent status value
and the issue type `bug`, and in which no priority or assignee value occurs
in the three queries, `"fixed bugs"`, `"resolved bugs"` and
`"completed bugs"` extract to criteria agreeing on all four filter fields —
no assignee, no priority, the first done-equivalent status and
issueType `bug` — while the keywords fields retain the differing raw
tokens. -/
theorem C7_synonym_field_agreement_amended (v : Vocab) (s0 : List Char)
    (hd : v.status.find? statusHasDoneSyn = some s0)
    (hbug : v.issue_type.contains (s2l "bug") = true)
    (hpri : ∀ p ∈ v.priority,
      ∀ q ∈ [s2l "fixed bugs", s2l "resolved bugs", s2l "completed bugs"],
        (strIn p q || strIn (replaceStr (s2l " ") [] p) q) = false)
    (hass : ∀ a ∈ v.assignees,
      ∀ q ∈ [s2l "fixed bugs", s2l "resolved bugs", s2l "completed bugs"],
        strIn a q = false) :
    ∃ k1 k2 k3,
      extractSearchCriteriaFast v (s2l "fixed bugs") =
        some ⟨CVal.absent, CVal.absent, CVal.single s0,
          CVal.single (s2l "bug"), k1⟩ ∧
      extractSearchCriteriaFast v (s2l "resolved bugs") =
        some ⟨CVal.absent, CVal.absent, CVal.single s0,
          CVal.single (s2l "bug"), k2⟩ ∧
      extractSearchCriteriaFast v (s2l "completed bugs") =
        some ⟨CVal.absent, CVal.absent, CVal.single s0,
          CVal.single (s2l "bug"), k3⟩ := by
  obtain ⟨k1, e1⟩ := fastExtract_doneBug_fields v (s2l "fixed bugs") s0
    (by decide) (by decide) (by decide) (by decide) (by decide) (by decide)
    (by decide) (fun p hp => hpri p hp _ (by simp))
    (fun a ha => hass a ha _ (by simp)) hd hbug
  obtain ⟨k2, e2⟩ := fastExtract_doneBug_fields v (s2l "resolved bugs") s0
    (by decide) (by decide) (by decide) (by decide) (by decide) (by decide)
    (by decide) (fun p hp => hpri p hp _ (by simp))
    (fun a ha => hass a ha _ (by simp)) hd hbug
  obtain ⟨k3, e3⟩ := fastExtract_doneBug_fields v (s2l "completed bugs") s0
    (by decide) (by decide) (by decide) (by decide) (by decide) (by decide)
    (by decide) (fun p hp => hpri p hp _ (by simp))
    (fun a ha => hass a ha _ (by simp)) hd hbug
  exact ⟨k1, k2, k3, e1, e2, e3⟩

/-- Witness for C7 at a concrete vocabulary. -/
theorem C7_synonym_field_agreement_witness :
    ∃ k1 k2 k3,
      extractSearchCriteriaFast vocabB (s2l "fixed bugs") =
        some ⟨CVal.absent, CVal.absent, CVal.single (s2l "done"),
          CVal.single (s2l "bug"), k1⟩ ∧
      extractSearchCriteriaFast vocabB (s2l "resolved bugs") =
        some ⟨CVal.absent, CVal.absent, CVal.single (s2l "done"),
          CVal.single (s2l "bug"), k2⟩ ∧
      extractSearchCriteriaFast vocabB (s2l "completed bugs") =
        some ⟨CVal.absent, CVal.absent, CVal.single (s2l "done"),
          CVal.single (s2l "bug"), k3⟩ :=
  C7_synonym_field_agreement_amended vocabB (s2l "done") (by rfl) (by decide)
    (by decide) (by decide)
